import Mathlib

/-!
Verification of the rustdoc-JSON to TypeScript declaration generator
(client-sdk/ts-web/rt/convert-rust/convert.py).

The script is embedded shallowly: the already-parsed rustdoc JSON crate is a
`Crate` value, the mutable memo dictionary `used_types_by_rdid` and the
standard error stream are threaded through every visitor as an explicit
`St` value, and a Python exception (KeyError, IndexError, TypeError,
RecursionError) is an `Except.error` carrying the exception class name.
Recursion depth is bounded by an explicit fuel argument, mirroring the
CPython recursion limit: exhausting the fuel yields the RecursionError
exception, exactly as an over-deep Python call stack would.

Diagnostic lines printed to stderr are modelled up to formatting: the
script prints whole Python objects (item dictionaries, path summaries);
the model logs an abbreviated line built from the same data, and the
fallible dictionary subscripts feeding those prints (for example
crate[paths][rdid]) are modelled faithfully as lookups that can raise.
The repr of a path summary interpolated into an output placeholder string
is likewise abbreviated by `reprSummary`.
-/

/-- Decidable equality for `Except`, used to evaluate runs on concrete data. -/
instance instDecEqExcept {ε α : Type} [DecidableEq ε] [DecidableEq α] : DecidableEq (Except ε α) := fun a b =>
  match a, b with
  | .error e, .error e' => if h : e = e' then .isTrue (by rw [h]) else .isFalse (by intro hc; cases hc; exact h rfl)
  | .ok v, .ok v' => if h : v = v' then .isTrue (by rw [h]) else .isFalse (by intro hc; cases hc; exact h rfl)
  | .error _, .ok _ => .isFalse (by intro hc; cases hc)
  | .ok _, .error _ => .isFalse (by intro hc; cases hc)

/-- Memo entry: `UsedType = collections.namedtuple(UsedType, (ref, source))`. -/
structure UsedType where
  ref : String
  source : String
deriving DecidableEq, Repr

/-- A rustdoc type expression, the dictionaries consumed by `visit_rdtype`:
a tagged value with a `kind` field and a kind-specific `inner` payload.
`resolvedPath` folds the `inner` dictionary (its `id` and the list of
angle-bracketed generic argument types) into the constructor.  `other`
stands for any kind the script does not recognize and carries the kind tag
together with the repr text of the inner payload, which is all the script
ever reads from such a node. -/
inductive RdType where
  | resolvedPath (id : String) (args : List RdType)
  | primitive (inner : String)
  | array (type : RdType)
  | other (kind : String) (innerRepr : String)

mutual

/-- Decidable equality on type expressions (hand written because of the
nested list of generic arguments). -/
def RdType.decEq : (a b : RdType) → Decidable (a = b)
  | .resolvedPath i a, .resolvedPath j b =>
    match String.decEq i j, RdType.decEqList a b with
    | .isTrue hi, .isTrue ha => .isTrue (by rw [hi, ha])
    | .isFalse h, _ => .isFalse (fun hc => by cases hc; exact h rfl)
    | _, .isFalse h => .isFalse (fun hc => by cases hc; exact h rfl)
  | .primitive p, .primitive q =>
    match String.decEq p q with
    | .isTrue hp => .isTrue (by rw [hp])
    | .isFalse h => .isFalse (fun hc => by cases hc; exact h rfl)
  | .array t, .array u =>
    match RdType.decEq t u with
    | .isTrue ht => .isTrue (by rw [ht])
    | .isFalse h => .isFalse (fun hc => by cases hc; exact h rfl)
  | .other k r, .other k' r' =>
    match String.decEq k k', String.decEq r r' with
    | .isTrue hk, .isTrue hr => .isTrue (by rw [hk, hr])
    | .isFalse h, _ => .isFalse (fun hc => by cases hc; exact h rfl)
    | _, .isFalse h => .isFalse (fun hc => by cases hc; exact h rfl)
  | .resolvedPath _ _, .primitive _ => .isFalse (fun hc => RdType.noConfusion hc)
  | .resolvedPath _ _, .array _ => .isFalse (fun hc => RdType.noConfusion hc)
  | .resolvedPath _ _, .other _ _ => .isFalse (fun hc => RdType.noConfusion hc)
  | .primitive _, .resolvedPath _ _ => .isFalse (fun hc => RdType.noConfusion hc)
  | .primitive _, .array _ => .isFalse (fun hc => RdType.noConfusion hc)
  | .primitive _, .other _ _ => .isFalse (fun hc => RdType.noConfusion hc)
  | .array _, .resolvedPath _ _ => .isFalse (fun hc => RdType.noConfusion hc)
  | .array _, .primitive _ => .isFalse (fun hc => RdType.noConfusion hc)
  | .array _, .other _ _ => .isFalse (fun hc => RdType.noConfusion hc)
  | .other _ _, .resolvedPath _ _ => .isFalse (fun hc => RdType.noConfusion hc)
  | .other _ _, .primitive _ => .isFalse (fun hc => RdType.noConfusion hc)
  | .other _ _, .array _ => .isFalse (fun hc => RdType.noConfusion hc)

/-- Decidable equality on lists of type expressions. -/
def RdType.decEqList : (a b : List RdType) → Decidable (a = b)
  | [], [] => .isTrue rfl
  | [], _ :: _ => .isFalse (fun hc => List.noConfusion hc)
  | _ :: _, [] => .isFalse (fun hc => List.noConfusion hc)
  | t :: ts, u :: us =>
    match RdType.decEq t u, RdType.decEqList ts us with
    | .isTrue ht, .isTrue hts => .isTrue (by rw [ht, hts])
    | .isFalse h, _ => .isFalse (fun hc => by cases hc; exact h rfl)
    | _, .isFalse h => .isFalse (fun hc => by cases hc; exact h rfl)

end

instance : DecidableEq RdType := RdType.decEq

/-- The `variant_inner` payload of an enum variant item: null for plain
variants, a list of type expressions for tuple variants, a list of field
item ids for struct variants. -/
inductive VariantPayload where
  | null
  | tupleTys (tys : List RdType)
  | structFields (fields : List String)
deriving DecidableEq

/-- The kind-specific `inner` payload of an indexed item.  A field item
carries its type expression directly (`item[inner]` is passed straight to
`visit_rdtype`).  `otherI` stands for payload shapes none of the visitors
can read; subscripting them raises, which the model surfaces as an error. -/
inductive ItemInner where
  | structI (struct_type : String) (fields : List String) (fields_stripped : Bool)
  | enumI (variants : List String)
  | typedefI (ty : RdType)
  | fieldI (ty : RdType)
  | variantI (variant_kind : String) (payload : VariantPayload)
  | otherI
deriving DecidableEq

/-- An entry of `crate[index]`. -/
structure Item where
  name : String
  docs : Option String
  attrs : List String
  kind : String
  inner : ItemInner
deriving DecidableEq

/-- An entry of `crate[paths]`: an item summary with crate id, path
segments and kind. -/
structure PathSummary where
  crate_id : Nat
  path : List String
  kind : String
deriving DecidableEq, Repr

/-- The pre-loaded rustdoc JSON crate.  JSON objects are association lists
in JSON order with pairwise distinct keys, matching Python dictionaries.
`external_crates` maps the (already int-parsed) crate id key to the
external crate name. -/
structure Crate where
  index : List (String × Item)
  paths : List (String × PathSummary)
  external_crates : List (Nat × String)
deriving DecidableEq

/-- The module-level bindings computed before the traversal: the crate and
the four well-known rdids resolved through `rdids_by_path`. -/
structure Env where
  crate : Crate
  String_rdid : String
  Vec_rdid : String
  Option_rdid : String
  cbor_Value_rdid : String
deriving DecidableEq

/-- The mutable program state threaded through the visitors: the
`used_types_by_rdid` dictionary (in insertion order) and the stderr log. -/
structure St where
  used_types_by_rdid : List (String × UsedType)
  stderrLog : List String
deriving DecidableEq, Repr

/-- Python dictionary subscript: the value at the key, if present. -/
def pyDictLookup {α : Type} (m : List (String × α)) (k : String) : Option α :=
  (m.find? (fun p => p.1 == k)).map (fun p => p.2)

/-- Python dictionary assignment `m[k] = v`: replace in place when the key
is present (keeping its position), append otherwise. -/
def pyDictInsert {α : Type} (m : List (String × α)) (k : String) (v : α) : List (String × α) :=
  if (m.find? (fun p => p.1 == k)).isSome then
    m.map (fun p => if p.1 == k then (k, v) else p)
  else
    m ++ [(k, v)]

/-- Append one diagnostic line to the stderr log. -/
def St.diag (st : St) (line : String) : St :=
  { st with stderrLog := st.stderrLog ++ [line] }

/-- Split a character sequence at every newline (the list of lines,
keeping a final empty line when the text ends with a newline). -/
def splitNl : List Char → List (List Char)
  | [] => [[]]
  | c :: cs =>
    let r := splitNl cs
    if c == '\n' then [] :: r
    else
      match r with
      | [] => [[c]]
      | l :: ls => (c :: l) :: ls

/-- `re.sub(r teststart, pre, s, flags=re.M)` with the caret pattern:
insert `pre` at the start of the string and after every newline. -/
def reSubCaret (pre : String) (s : String) : String :=
  String.intercalate "\n" ((splitNl s.data).map (fun l => pre ++ String.mk l))

/-- Whether the first character sequence starts with the second. -/
def listStartsWith : List Char → List Char → Bool
  | _, [] => true
  | [], _ :: _ => false
  | c :: cs, p :: ps => c == p && listStartsWith cs ps

/-- `re.match` against the raw attribute pattern
`#[cbor(rename = "(\w+)")]`: anchored at the start, a nonempty greedy run
of word characters inside the quotes, arbitrary trailing text allowed
after the closing bracket. -/
def matchCborRename (attr : String) : Option String :=
  let pre := "#[cbor(rename = \"".data
  let cs := attr.data
  if listStartsWith cs pre then
    let rest := cs.drop pre.length
    let w := rest.takeWhile (fun c => c.isAlphanum || c == '_')
    if decide (0 < w.length) && listStartsWith (rest.drop w.length) ("\")]".data) then
      some (String.mk w)
    else none
  else none

/-- The rename loop shared by `render_field` and `render_variant`: start
from the schema name and overwrite it with the capture of every attribute
that matches the rename pattern (so a later match overwrites an earlier
one). -/
def effName (name : String) (attrs : List String) : String :=
  attrs.foldl (fun n attr => match matchCborRename attr with
    | some w => w
    | none => n) name

/-- The check `kind == primitive and inner == u8` applied to a type node. -/
def isPrimU8 : RdType → Bool
  | .primitive "u8" => true
  | _ => false

/-- Abbreviated rendering of a path summary used in diagnostics and in the
unindexed-path placeholder (the script prints the Python repr of the
summary dictionary). -/
def reprSummary (s : PathSummary) : String :=
  String.intercalate "::" s.path

mutual

/-- `render_field(rdid)`: look the field item up, log, build the doc
comment block, resolve the wire name through the rename attributes, render
the field type and emit one `name: type;` line. -/
def render_field (env : Env) (fuel : Nat) (rdid : String) (st : St) : Except String (String × St) :=
  match fuel with
  | 0 => .error "RecursionError"
  | f + 1 =>
    match pyDictLookup env.crate.index rdid with
    | none => .error "KeyError"
    | some item =>
      let st := st.diag ("rendering field " ++ item.name)
      let source :=
        match item.docs with
        | some docs => "    /**\n" ++ reSubCaret "     * " docs ++ "\n     */\n"
        | none => ""
      let name := effName item.name item.attrs
      match item.inner with
      | .fieldI ty =>
        match visit_rdtype env f ty st with
        | .error e => .error e
        | .ok (tyS, st) => .ok (source ++ "    " ++ name ++ ": " ++ tyS ++ ";\n", st)
      | _ => .error "TypeError"
termination_by structural fuel

/-- The generator feeding `join` in the plain-struct branch and in the
struct-variant branch: render each field in order, threading state. -/
def renderFieldsList (env : Env) (fuel : Nat) (rdids : List String) (st : St) : Except String (List String × St) :=
  match fuel with
  | 0 => .error "RecursionError"
  | f + 1 =>
    match rdids with
    | [] => .ok ([], st)
    | rdid :: rest =>
      match render_field env f rdid st with
      | .error e => .error e
      | .ok (s, st) =>
        match renderFieldsList env f rest st with
        | .error e => .error e
        | .ok (ss, st) => .ok (s :: ss, st)
termination_by structural fuel

/-- The generator feeding `join` in the tuple-struct branch: for each
field id, render `visit_rdtype(crate[index][field_rdid][inner])`. -/
def tupleFieldsList (env : Env) (fuel : Nat) (rdids : List String) (st : St) : Except String (List String × St) :=
  match fuel with
  | 0 => .error "RecursionError"
  | f + 1 =>
    match rdids with
    | [] => .ok ([], st)
    | rdid :: rest =>
      match pyDictLookup env.crate.index rdid with
      | none => .error "KeyError"
      | some fitem =>
        match fitem.inner with
        | .fieldI ty =>
          match visit_rdtype env f ty st with
          | .error e => .error e
          | .ok (s, st) =>
            match tupleFieldsList env f rest st with
            | .error e => .error e
            | .ok (ss, st) => .ok (s :: ss, st)
        | _ => .error "TypeError"
termination_by structural fuel

/-- `visit_struct(rdid)`: log the path summary, return the memoized ref if
present, otherwise render the declaration (plain interface, tuple type, or
the unhandled-struct_type placeholder), memoize it and return its name. -/
def visit_struct (env : Env) (fuel : Nat) (rdid : String) (st : St) : Except String (String × St) :=
  match fuel with
  | 0 => .error "RecursionError"
  | f + 1 =>
    match pyDictLookup env.crate.paths rdid with
    | none => .error "KeyError"
    | some summary =>
      let st := st.diag ("visiting struct " ++ reprSummary summary)
      match pyDictLookup st.used_types_by_rdid rdid with
      | some used => .ok (used.ref, st)
      | none =>
        match pyDictLookup env.crate.index rdid with
        | none => .error "KeyError"
        | some item =>
          let ref := item.name
          let docsPart :=
            match item.docs with
            | some docs => "/**\n" ++ reSubCaret " * " docs ++ "\n */\n"
            | none => ""
          match item.inner with
          | .structI struct_type fields fields_stripped =>
            if struct_type == "plain" then
              match renderFieldsList env f fields st with
              | .error e => .error e
              | .ok (ss, st) =>
                let source := docsPart ++ "export interface " ++ ref ++ " \x7b\n" ++ String.join ss ++ "\x7d\n"
                .ok (ref, { st with used_types_by_rdid := pyDictInsert st.used_types_by_rdid rdid ⟨ref, source⟩ })
            else if struct_type == "tuple" then
              if fields_stripped then
                let source := docsPart ++ "export type " ++ ref ++ " = oasis.types.NotModeled; // stripped tuple type\n"
                .ok (ref, { st with used_types_by_rdid := pyDictInsert st.used_types_by_rdid rdid ⟨ref, source⟩ })
              else
                match tupleFieldsList env f fields st with
                | .error e => .error e
                | .ok (ss, st) =>
                  let source := docsPart ++ "export type " ++ ref ++ " = [" ++ String.intercalate ", " ss ++ "];\n"
                  .ok (ref, { st with used_types_by_rdid := pyDictInsert st.used_types_by_rdid rdid ⟨ref, source⟩ })
            else
              let st := st.diag ("unhandled struct_type " ++ struct_type)
              let source := docsPart ++ "export type " ++ ref ++ " = oasis.types.NotModeled; // unhandled struct_type " ++ struct_type
              .ok (ref, { st with used_types_by_rdid := pyDictInsert st.used_types_by_rdid rdid ⟨ref, source⟩ })
          | _ => .error "KeyError"
termination_by structural fuel

/-- `render_variant(rdid)`: log the path summary, resolve the wire name
through the rename attributes and render one union member according to
`variant_kind`. -/
def render_variant (env : Env) (fuel : Nat) (rdid : String) (st : St) : Except String (String × St) :=
  match fuel with
  | 0 => .error "RecursionError"
  | f + 1 =>
    match pyDictLookup env.crate.paths rdid with
    | none => .error "KeyError"
    | some summary =>
      let st := st.diag ("rendering variant " ++ reprSummary summary)
      match pyDictLookup env.crate.index rdid with
      | none => .error "KeyError"
      | some item =>
        let name := effName item.name item.attrs
        match item.inner with
        | .variantI variant_kind payload =>
          if variant_kind == "plain" then
            let source :=
              match item.docs with
              | some docs => reSubCaret "    // " docs ++ "\n"
              | none => ""
            .ok (source ++ "    \x27" ++ name ++ "\x27", st)
          else if variant_kind == "tuple" then
            match payload with
            | .tupleTys tys =>
              let source := "    \x7b\n"
              let source :=
                match item.docs with
                | some docs => source ++ "        /**\n" ++ reSubCaret "         * " docs ++ "\n         */\n"
                | none => source
              let typeSourceRes :=
                match tys with
                | [ty] => visit_rdtype env f ty st
                | _ =>
                  match variantTysList env f tys st with
                  | .error e => .error e
                  | .ok (ss, st) => .ok ("[" ++ String.intercalate ", " ss ++ "]", st)
              match typeSourceRes with
              | .error e => .error e
              | .ok (typeSource, st) =>
                .ok (source ++ "        " ++ name ++ ": " ++ typeSource ++ ";\n" ++ "    \x7d", st)
            | _ => .error "TypeError"
          else if variant_kind == "struct" then
            match payload with
            | .structFields fields =>
              let source := "    \x7b\n"
              let source :=
                match item.docs with
                | some docs => source ++ "        /**\n" ++ reSubCaret "         * " docs ++ "\n         */\n"
                | none => source
              match renderFieldsList env f fields st with
              | .error e => .error e
              | .ok (ss, st) =>
                let typeSource := "\x7b\n" ++ String.join ss ++ "\x7d"
                .ok (source ++ "        " ++ name ++ ": " ++ typeSource ++ ";\n" ++ "    \x7d", st)
            | _ => .error "TypeError"
          else
            let st := st.diag ("unhandled variant kind " ++ variant_kind)
            let source :=
              match item.docs with
              | some docs => reSubCaret "    // " docs ++ "\n"
              | none => ""
            .ok (source ++ "    oasis.types.NotModeled /* unhandled kind " ++ variant_kind ++ " */", st)
        | _ => .error "KeyError"
termination_by structural fuel

/-- The generator feeding `join` in the multi-type tuple-variant branch. -/
def variantTysList (env : Env) (fuel : Nat) (tys : List RdType) (st : St) : Except String (List String × St) :=
  match fuel with
  | 0 => .error "RecursionError"
  | f + 1 =>
    match tys with
    | [] => .ok ([], st)
    | ty :: rest =>
      match visit_rdtype env f ty st with
      | .error e => .error e
      | .ok (s, st) =>
        match variantTysList env f rest st with
        | .error e => .error e
        | .ok (ss, st) => .ok (s :: ss, st)
termination_by structural fuel

/-- The generator feeding `join` over the variants of an enum. -/
def variantsList (env : Env) (fuel : Nat) (rdids : List String) (st : St) : Except String (List String × St) :=
  match fuel with
  | 0 => .error "RecursionError"
  | f + 1 =>
    match rdids with
    | [] => .ok ([], st)
    | rdid :: rest =>
      match render_variant env f rdid st with
      | .error e => .error e
      | .ok (s, st) =>
        match variantsList env f rest st with
        | .error e => .error e
        | .ok (ss, st) => .ok (s :: ss, st)
termination_by structural fuel

/-- `visit_enum(rdid)`: log the path summary, return the memoized ref if
present, otherwise render the union of the variants, memoize and return
the name. -/
def visit_enum (env : Env) (fuel : Nat) (rdid : String) (st : St) : Except String (String × St) :=
  match fuel with
  | 0 => .error "RecursionError"
  | f + 1 =>
    match pyDictLookup env.crate.paths rdid with
    | none => .error "KeyError"
    | some summary =>
      let st := st.diag ("visiting enum " ++ reprSummary summary)
      match pyDictLookup st.used_types_by_rdid rdid with
      | some used => .ok (used.ref, st)
      | none =>
        match pyDictLookup env.crate.index rdid with
        | none => .error "KeyError"
        | some item =>
          let ref := item.name
          let docsPart :=
            match item.docs with
            | some docs => "/**\n" ++ reSubCaret " * " docs ++ "\n */\n"
            | none => ""
          match item.inner with
          | .enumI variants =>
            match variantsList env f variants st with
            | .error e => .error e
            | .ok (ss, st) =>
              let source := docsPart ++ "export type " ++ ref ++ " =\n" ++ String.intercalate " |\n" ss ++ ";\n"
              .ok (ref, { st with used_types_by_rdid := pyDictInsert st.used_types_by_rdid rdid ⟨ref, source⟩ })
          | _ => .error "KeyError"
termination_by structural fuel

/-- `visit_typedef(rdid)`: log the path summary and return the rendering
of the aliased type expression; no memo access at all. -/
def visit_typedef (env : Env) (fuel : Nat) (rdid : String) (st : St) : Except String (String × St) :=
  match fuel with
  | 0 => .error "RecursionError"
  | f + 1 =>
    match pyDictLookup env.crate.paths rdid with
    | none => .error "KeyError"
    | some summary =>
      let st := st.diag ("visiting typedef " ++ reprSummary summary)
      match pyDictLookup env.crate.index rdid with
      | none => .error "KeyError"
      | some item =>
        match item.inner with
        | .typedefI ty => visit_rdtype env f ty st
        | _ => .error "KeyError"
termination_by structural fuel

/-- `visit_resolved_path(resolved_path)`: the well-known rdids first
(string, Vec with its byte special case, Option, the cbor Value), then the
unindexed-path placeholder, then dispatch on the indexed item kind with an
unhandled-kind placeholder fallback.  Subscripting the first generic
argument of an argument-free Vec or Option raises IndexError, exactly like
the Python subscript `args[0]`. -/
def visit_resolved_path (env : Env) (fuel : Nat) (id : String) (args : List RdType) (st : St) : Except String (String × St) :=
  match fuel with
  | 0 => .error "RecursionError"
  | f + 1 =>
    let st := st.diag ("visiting resolved path " ++ id)
    if id == env.String_rdid then .ok ("string", st)
    else if id == env.Vec_rdid then
      match args with
      | [] => .error "IndexError"
      | arg0 :: _ =>
        if isPrimU8 arg0 then .ok ("Uint8Array", st)
        else
          match visit_rdtype env f arg0 st with
          | .error e => .error e
          | .ok (s, st) => .ok (s ++ "[]", st)
    else if id == env.Option_rdid then
      match args with
      | [] => .error "IndexError"
      | arg0 :: _ =>
        match visit_rdtype env f arg0 st with
        | .error e => .error e
        | .ok (s, st) => .ok ("(" ++ s ++ " | null)", st)
    else if id == env.cbor_Value_rdid then .ok ("unknown", st)
    else
      match pyDictLookup env.crate.index id with
      | none =>
        match pyDictLookup env.crate.paths id with
        | none => .error "KeyError"
        | some summary =>
          let st := st.diag ("unindexed resolved path id " ++ id ++ " path " ++ reprSummary summary)
          .ok ("oasis.types.NotModeled /* unindexed resolved path id " ++ id ++ " path " ++ reprSummary summary ++ " */", st)
      | some item =>
        if item.kind == "struct" then visit_struct env f id st
        else if item.kind == "enum" then visit_enum env f id st
        else if item.kind == "typedef" then visit_typedef env f id st
        else
          let st := st.diag ("unhandled item kind " ++ item.kind)
          .ok ("any /* unhandled item " ++ id ++ " kind " ++ item.kind ++ " */", st)
termination_by structural fuel

/-- `visit_rdtype(rdtype)`: dispatch on the kind tag of a type expression:
resolved paths, primitives by width, fixed-size arrays with the byte
special case, and the unhandled-tag placeholder fallback. -/
def visit_rdtype (env : Env) (fuel : Nat) (t : RdType) (st : St) : Except String (String × St) :=
  match fuel with
  | 0 => .error "RecursionError"
  | f + 1 =>
    match t with
    | .resolvedPath id args => visit_resolved_path env f id args st
    | .primitive p =>
      if ["u8", "u16", "u32", "i8", "i16", "i32"].contains p then
        .ok ("number /* " ++ p ++ " */", st)
      else if ["u64", "i64"].contains p then
        .ok ("oasis.types.longnum /* " ++ p ++ " */", st)
      else if ["u128", "i128"].contains p then
        .ok ("Uint8Array /* " ++ p ++ " */", st)
      else
        let st := st.diag ("unhandled primitive " ++ p)
        .ok ("any /* unhandled primitive " ++ p ++ " */", st)
    | .array ty =>
      if isPrimU8 ty then .ok ("Uint8Array", st)
      else
        match visit_rdtype env f ty st with
        | .error e => .error e
        | .ok (s, st) => .ok (s ++ "[]", st)
    | .other kind innerRepr =>
      let st := st.diag ("unhandled tag " ++ kind ++ " content " ++ innerRepr)
      .ok ("any /* unhandled tag " ++ kind ++ " content " ++ innerRepr ++ " */", st)
termination_by structural fuel

end

/-- `external_crate_ids_by_name` lookup: the dict comprehension over
`crate[external_crates]` keeps the last entry for a duplicated name. -/
def crateIdByName (c : Crate) (name : String) : Option Nat :=
  ((c.external_crates.filter (fun p => p.2 == name)).getLast?).map (fun p => p.1)

/-- `rdids_by_path` lookup: the dict comprehension over `crate[paths]`
keyed by the (crate id, path, kind) triple keeps the last entry for a
duplicated triple. -/
def rdidForPath (c : Crate) (cid : Nat) (path : List String) (kind : String) : Option String :=
  ((c.paths.filter (fun p => p.2.crate_id == cid && p.2.path == path && p.2.kind == kind)).getLast?).map (fun p => p.1)

/-- The module-level setup of lines 13 to 20: resolve the four well-known
rdids, failing with KeyError when a lookup misses. -/
def mkEnv (c : Crate) : Except String Env :=
  match crateIdByName c "alloc" with
  | none => .error "KeyError"
  | some allocId =>
    match crateIdByName c "core" with
    | none => .error "KeyError"
    | some coreId =>
      match crateIdByName c "sk_cbor" with
      | none => .error "KeyError"
      | some skCborId =>
        match rdidForPath c allocId ["alloc", "string", "String"] "struct" with
        | none => .error "KeyError"
        | some stringRdid =>
          match rdidForPath c allocId ["alloc", "vec", "Vec"] "struct" with
          | none => .error "KeyError"
          | some vecRdid =>
            match rdidForPath c coreId ["core", "option", "Option"] "enum" with
            | none => .error "KeyError"
            | some optionRdid =>
              match rdidForPath c skCborId ["sk_cbor", "values", "Value"] "enum" with
              | none => .error "KeyError"
              | some cborValueRdid =>
                .ok ⟨c, stringRdid, vecRdid, optionRdid, cborValueRdid⟩

/-- Lexicographic comparison of character sequences by code point, the
order Python uses to compare strings. -/
def charListLe : List Char → List Char → Bool
  | [], _ => true
  | _ :: _, [] => false
  | c :: cs, d :: ds => if c.toNat == d.toNat then charListLe cs ds else decide (c.toNat < d.toNat)

/-- Python string comparison: lexicographic by code point. -/
def strLe (a b : String) : Bool :=
  charListLe a.data b.data

/-- Insert a declaration after every already placed declaration whose name
is less than or equal to its own (the insertion step of a stable sort). -/
def insortOne (x : UsedType) : List UsedType → List UsedType
  | [] => [x]
  | h :: t => if strLe h.ref x.ref then h :: insortOne x t else x :: h :: t

/-- Sort the memoized declarations by their emitted name, as
`sorted(used_types_by_rdid.values(), key=lambda used_type: used_type.ref)`
does: a stable insertion sort under the Python string order (any stable
sort computes the same list the library sort does). -/
def sortByRef (l : List UsedType) : List UsedType :=
  l.foldl (fun acc x => insortOne x acc) []

/-- The emission drive of lines 176 to 179: resolve the three roots in
order, visit them threading one state that starts empty, then print the
sources of the memoized declarations sorted by emitted name, joined by a
single newline, with the final newline appended by print. -/
def runConvert (c : Crate) (fuel : Nat) : Except String (String × St) :=
  match mkEnv c with
  | .error e => .error e
  | .ok env =>
    match rdidForPath c 0 ["oasis_runtime_sdk", "modules", "accounts", "Event"] "enum" with
    | none => .error "KeyError"
    | some eventRdid =>
      match visit_enum env fuel eventRdid ⟨[], []⟩ with
      | .error e => .error e
      | .ok (_, st) =>
        match rdidForPath c 0 ["oasis_runtime_sdk", "types", "transaction", "Transaction"] "struct" with
        | none => .error "KeyError"
        | some txRdid =>
          match visit_struct env fuel txRdid st with
          | .error e => .error e
          | .ok (_, st) =>
            match rdidForPath c 0 ["oasis_runtime_sdk", "types", "transaction", "UnverifiedTransaction"] "struct" with
            | none => .error "KeyError"
            | some utxRdid =>
              match visit_struct env fuel utxRdid st with
              | .error e => .error e
              | .ok (_, st) =>
                let decls := sortByRef (st.used_types_by_rdid.map (fun p => p.2))
                .ok (String.intercalate "\n" (decls.map (fun u => u.source)) ++ "\n", st)

/-! ## Concrete schema fixtures -/

/-- A small well-formed crate: the three expected roots (an enum with no
variants and two plain structs with no fields) plus path summaries for the
four well-known external declarations. -/
def crateW : Crate :=
  { index := [
      ("E", { name := "Event", docs := none, attrs := [], kind := "enum", inner := .enumI [] }),
      ("T", { name := "Transaction", docs := none, attrs := [], kind := "struct", inner := .structI "plain" [] false }),
      ("U", { name := "UnverifiedTransaction", docs := none, attrs := [], kind := "struct", inner := .structI "plain" [] false })],
    paths := [
      ("S", { crate_id := 1, path := ["alloc", "string", "String"], kind := "struct" }),
      ("V", { crate_id := 1, path := ["alloc", "vec", "Vec"], kind := "struct" }),
      ("O", { crate_id := 2, path := ["core", "option", "Option"], kind := "enum" }),
      ("C", { crate_id := 3, path := ["sk_cbor", "values", "Value"], kind := "enum" }),
      ("E", { crate_id := 0, path := ["oasis_runtime_sdk", "modules", "accounts", "Event"], kind := "enum" }),
      ("T", { crate_id := 0, path := ["oasis_runtime_sdk", "types", "transaction", "Transaction"], kind := "struct" }),
      ("U", { crate_id := 0, path := ["oasis_runtime_sdk", "types", "transaction", "UnverifiedTransaction"], kind := "struct" })],
    external_crates := [(1, "alloc"), (2, "core"), (3, "sk_cbor")] }

/-- The environment the module-level setup computes for `crateW`. -/
def envW : Env := ⟨crateW, "S", "V", "O", "C"⟩

/-- The setup indeed resolves the four well-known rdids of `crateW`. -/
theorem mkEnv_crateW : mkEnv crateW = .ok envW := rfl

/-- A crate holding a directly self-referential struct: the struct with
rdid 1 (named Selfy) has one field (item rdid 2) whose type expression is
a named reference back to rdid 1. -/
def crateC1 : Crate :=
  { index := [
      ("1", { name := "Selfy", docs := none, attrs := [], kind := "struct", inner := .structI "plain" ["2"] false }),
      ("2", { name := "itself", docs := none, attrs := [], kind := "struct_field", inner := .fieldI (.resolvedPath "1" []) })],
    paths := [
      ("S", { crate_id := 1, path := ["alloc", "string", "String"], kind := "struct" }),
      ("V", { crate_id := 1, path := ["alloc", "vec", "Vec"], kind := "struct" }),
      ("O", { crate_id := 2, path := ["core", "option", "Option"], kind := "enum" }),
      ("C", { crate_id := 3, path := ["sk_cbor", "values", "Value"], kind := "enum" }),
      ("1", { crate_id := 0, path := ["selfref", "Selfy"], kind := "struct" })],
    external_crates := [(1, "alloc"), (2, "core"), (3, "sk_cbor")] }

/-- The environment for `crateC1`. -/
def envC1 : Env := ⟨crateC1, "S", "V", "O", "C"⟩

/-- The setup resolves the same four well-known rdids for `crateC1`. -/
theorem mkEnv_crateC1 : mkEnv crateC1 = .ok envC1 := rfl

/-- Helper for claim C1: as long as rdid 1 is not memoized when
`visit_struct` is entered, the visit exhausts any recursion budget.  The
memo entry for a struct is registered only after its field text is fully
built, so the chain visit_struct to render_field to visit_rdtype to
visit_resolved_path re-enters visit_struct on rdid 1 with the memo still
lacking rdid 1, consuming recursion depth without bound. -/
theorem c1_loop : ∀ fuel st, pyDictLookup st.used_types_by_rdid "1" = none →
    visit_struct envC1 fuel "1" st = .error "RecursionError" := by
  intro fuel
  induction fuel using Nat.strong_induction_on with
  | _ fuel ih =>
    match fuel with
    | 0 => intro st h; rfl
    | 1 =>
      intro st h; simp only [pyDictLookup] at h
      simp [visit_struct, envC1, crateC1, pyDictLookup, St.diag, h, renderFieldsList]
    | 2 =>
      intro st h; simp only [pyDictLookup] at h
      simp [visit_struct, envC1, crateC1, pyDictLookup, St.diag, h, renderFieldsList, render_field]
    | 3 =>
      intro st h; simp only [pyDictLookup] at h
      simp [visit_struct, envC1, crateC1, pyDictLookup, St.diag, h, renderFieldsList, render_field, visit_rdtype]
    | 4 =>
      intro st h; simp only [pyDictLookup] at h
      simp [visit_struct, envC1, crateC1, pyDictLookup, St.diag, h, renderFieldsList, render_field, visit_rdtype, visit_resolved_path]
    | (j+5) =>
      intro st h
      have hrec : ∀ st', pyDictLookup st'.used_types_by_rdid "1" = none →
          visit_struct envC1 j "1" st' = .error "RecursionError" := fun st' h' => ih j (by omega) st' h'
      have hp : pyDictLookup envC1.crate.paths "1" = some ⟨0, ["selfref", "Selfy"], "struct"⟩ := rfl
      have hi1 : pyDictLookup envC1.crate.index "1" = some ⟨"Selfy", none, [], "struct", .structI "plain" ["2"] false⟩ := rfl
      have hi2 : pyDictLookup envC1.crate.index "2" = some ⟨"itself", none, [], "struct_field", .fieldI (.resolvedPath "1" [])⟩ := rfl
      have hS : envC1.String_rdid = "S" := rfl
      have hV : envC1.Vec_rdid = "V" := rfl
      have hO : envC1.Option_rdid = "O" := rfl
      have hC : envC1.cbor_Value_rdid = "C" := rfl
      simp [visit_struct, renderFieldsList, render_field, visit_rdtype, visit_resolved_path,
            St.diag, reprSummary, hp, hi1, hi2, hS, hV, hO, hC, h, hrec, effName]

/-- Claim C1: for a struct declaration whose field directly references the
same struct, the claim states that visit_struct terminates with the field
rendered as the struct name and one memo entry.  The code does the
opposite: on the self-referential struct Selfy of `crateC1`, visit_struct
exhausts every recursion budget and raises RecursionError — it never
completes, because the memo entry is registered only after the field text
is built (line 60), so the memo check at line 41 never hits during the
recursive descent.  The spec itself records this as a required fix in its
design notes. -/
theorem c1_self_reference_diverges :
    ∀ fuel, visit_struct envC1 fuel "1" ⟨[], []⟩ = .error "RecursionError" :=
  fun fuel => c1_loop fuel ⟨[], []⟩ rfl

/-- A crate with one field item carrying two rename attributes, first
renaming to a, then to b. -/
def crateC2 : Crate :=
  { index := [
      ("f", { name := "orig", docs := none,
              attrs := ["#[cbor(rename = \"a\")]", "#[cbor(rename = \"b\")]"],
              kind := "struct_field", inner := .fieldI (.primitive "u8") })],
    paths := [], external_crates := [] }

/-- Environment around `crateC2` (the well-known rdids do not occur). -/
def envC2 : Env := ⟨crateC2, "S", "V", "O", "C"⟩

/-- Counterexample to claim C2: the claim says the FIRST matching rename
attribute wins, so the field of `crateC2` would be emitted as a.  The
rename loop has no break and keeps overwriting the name, so the field is
emitted as b: the last matching attribute wins. -/
theorem c2_counterexample :
    render_field envC2 2 "f" ⟨[], []⟩ = .ok ("    b: number /* u8 */;\n", ⟨[], ["rendering field orig"]⟩) ∧
    ("    b: number /* u8 */;\n" : String) ≠ "    a: number /* u8 */;\n" :=
  ⟨rfl, by decide⟩

/-- Claim C2 as amended: the wire name of a field or variant defaults to
the schema-declared name and is overridden by matching rename attributes,
the LAST matching attribute winning (each later match overwrites the
earlier capture).  `effName` is exactly the rename loop that both
`render_field` and `render_variant` run over the raw attribute strings. -/
theorem c2_last_rename_wins : ∀ (name : String) (attrs : List String),
    effName name attrs = ((attrs.filterMap matchCborRename).getLast?).getD name := by
  intro name attrs
  induction attrs generalizing name with
  | nil => rfl
  | cons a as ih =>
    simp only [effName, List.foldl_cons, List.filterMap_cons]
    cases hm : matchCborRename a with
    | none => simpa [effName] using ih name
    | some w =>
      have hw := ih w
      simp only [effName] at hw
      rw [hw]
      cases hl : as.filterMap matchCborRename with
      | nil => simp
      | cons b bs =>
        cases hx : (b :: bs).getLast? with
        | none => simp [List.getLast?_eq_none_iff] at hx
        | some x => simp [List.getLast?_cons_cons, hx]

/-- Whether a visit returned normally (no Python exception). -/
def isOkStr : Except String (String × St) → Bool
  | .ok _ => true
  | .error _ => false

/-- The side conditions of the generic named-reference fallbacks: an id
outside the index must still be present in the path map (both the
diagnostic print and the placeholder text subscript `crate[paths][rdid]`),
and an indexed item must carry a kind other than struct, enum and typedef
for the unhandled-kind placeholder branch to apply. -/
def shallowFallback (env : Env) (id : String) : Bool :=
  match pyDictLookup env.crate.index id with
  | none => (pyDictLookup env.crate.paths id).isSome
  | some item => !(item.kind == "struct" || item.kind == "enum" || item.kind == "typedef")

/-- The type expressions on which the renderer cannot raise: primitives,
unrecognized kinds, arrays of such, and named references that stay out of
the declaration visitors — the four well-known ids (with at least one
generic argument where one is subscripted), unindexed-but-pathed ids, and
indexed items of unhandled kind.  References dispatching into
visit_struct, visit_enum or visit_typedef are excluded: those can exhaust
the recursion limit on cyclic schemas. -/
def shallowOk (env : Env) : RdType → Bool
  | .primitive _ => true
  | .other _ _ => true
  | .array t => shallowOk env t
  | .resolvedPath id [] =>
    if id == env.String_rdid then true
    else if id == env.Vec_rdid then false
    else if id == env.Option_rdid then false
    else if id == env.cbor_Value_rdid then true
    else shallowFallback env id
  | .resolvedPath id (a :: _) =>
    if id == env.String_rdid then true
    else if id == env.Vec_rdid then shallowOk env a
    else if id == env.Option_rdid then shallowOk env a
    else if id == env.cbor_Value_rdid then true
    else shallowFallback env id
termination_by structural t => t

/-- Recursion depth sufficient to fully render a shallow type expression. -/
def rdFuel : RdType → Nat
  | .primitive _ => 1
  | .other _ _ => 1
  | .array t => rdFuel t + 1
  | .resolvedPath _ [] => 2
  | .resolvedPath _ (a :: _) => rdFuel a + 2
termination_by structural t => t

/-- Totality of the type-reference renderer on shallow expressions, by
strong induction on the recursion budget. -/
theorem c3_total : ∀ (env : Env) (fuel : Nat) (t : RdType) (st : St),
    shallowOk env t = true → rdFuel t ≤ fuel → isOkStr (visit_rdtype env fuel t st) = true := by
  intro env fuel
  induction fuel using Nat.strong_induction_on with
  | _ fuel ih =>
    intro t st hs hf
    match t with
    | .primitive p =>
      match fuel, hf with
      | f + 1, _ =>
        simp only [visit_rdtype]
        split_ifs <;> rfl
    | .other k i =>
      match fuel, hf with
      | f + 1, _ => rfl
    | .array ty =>
      simp only [rdFuel] at hf
      match fuel, hf with
      | f + 1, hf =>
        simp only [visit_rdtype]
        by_cases hu : isPrimU8 ty = true
        · simp only [hu, if_true]; rfl
        · simp only [Bool.not_eq_true] at hu
          simp only [hu, Bool.false_eq_true, if_false]
          have hok := ih f (by omega) ty st (by simpa [shallowOk] using hs) (by omega)
          revert hok
          cases hv : visit_rdtype env f ty st with
          | error e => intro hok; simp [isOkStr] at hok
          | ok v => intro _; rcases v with ⟨s, st2⟩; rfl
    | .resolvedPath id args =>
      match fuel, args, hf with
      | 0, [], hf => simp [rdFuel] at hf
      | 0, a :: rest, hf => simp [rdFuel] at hf
      | 1, [], hf => simp [rdFuel] at hf
      | 1, a :: rest, hf => simp [rdFuel] at hf
      | (g + 2), args, hf =>
        simp only [visit_rdtype, visit_resolved_path]
        by_cases h1 : (id == env.String_rdid) = true
        · simp only [h1, if_true]; rfl
        · simp only [Bool.not_eq_true] at h1
          simp only [h1, Bool.false_eq_true, if_false]
          by_cases h2 : (id == env.Vec_rdid) = true
          · simp only [h2, if_true]
            match args, hf, hs with
            | a :: rest, hf, hs =>
              by_cases hu : isPrimU8 a = true
              · simp only [hu, if_true]; rfl
              · simp only [Bool.not_eq_true] at hu
                simp only [hu, Bool.false_eq_true, if_false]
                have hsa : shallowOk env a = true := by
                  simp only [shallowOk, h1, h2] at hs
                  simpa using hs
                have hfa : rdFuel a ≤ g := by
                  simp only [rdFuel] at hf; omega
                have hok := ih g (by omega) a (st.diag ("visiting resolved path " ++ id)) hsa hfa
                revert hok
                cases hv : visit_rdtype env g a (st.diag ("visiting resolved path " ++ id)) with
                | error e => intro hok; simp [isOkStr] at hok
                | ok v => intro _; rcases v with ⟨s, st2⟩; rfl
            | [], hf, hs =>
              exfalso
              simp only [shallowOk, h1, h2] at hs
              simp at hs
          · simp only [Bool.not_eq_true] at h2
            simp only [h2, Bool.false_eq_true, if_false]
            by_cases h3 : (id == env.Option_rdid) = true
            · simp only [h3, if_true]
              match args, hf, hs with
              | a :: rest, hf, hs =>
                have hsa : shallowOk env a = true := by
                  simp only [shallowOk, h1, h2, h3] at hs
                  simpa using hs
                have hfa : rdFuel a ≤ g := by
                  simp only [rdFuel] at hf; omega
                have hok := ih g (by omega) a (st.diag ("visiting resolved path " ++ id)) hsa hfa
                revert hok
                cases hv : visit_rdtype env g a (st.diag ("visiting resolved path " ++ id)) with
                | error e => intro hok; simp [isOkStr] at hok
                | ok v => intro _; rcases v with ⟨s, st2⟩; simp [isOkStr, hv]
              | [], hf, hs =>
                exfalso
                simp only [shallowOk, h1, h2, h3] at hs
                simp at hs
            · simp only [Bool.not_eq_true] at h3
              simp only [h3, Bool.false_eq_true, if_false]
              by_cases h4 : (id == env.cbor_Value_rdid) = true
              · simp only [h4, if_true]; rfl
              · simp only [Bool.not_eq_true] at h4
                simp only [h4, Bool.false_eq_true, if_false]
                have hfb : shallowFallback env id = true := by
                  match args, hs with
                  | [], hs =>
                    simp only [shallowOk, h1, h2, h3, h4] at hs
                    simpa using hs
                  | a :: rest, hs =>
                    simp only [shallowOk, h1, h2, h3, h4] at hs
                    simpa using hs
                simp only [shallowFallback] at hfb
                cases hidx : pyDictLookup env.crate.index id with
                | none =>
                  rw [hidx] at hfb
                  cases hpath : pyDictLookup env.crate.paths id with
                  | none => rw [hpath] at hfb; simp at hfb
                  | some summary => rfl
                | some item =>
                  rw [hidx] at hfb
                  simp only [Bool.not_eq_true', Bool.or_eq_false_iff] at hfb
                  obtain ⟨⟨hk1, hk2⟩, hk3⟩ := hfb
                  simp only [hk1, hk2, hk3, Bool.false_eq_true, if_false]
                  rfl

/-- Counterexample to claim C3: the renderer is not total.  A named
reference to the growable-sequence type with an empty generic-argument
list makes line 132 subscript `args[0]`, raising IndexError: visit_rdtype
raises instead of returning a string. -/
theorem c3_counterexample :
    visit_rdtype envW 3 (.resolvedPath "V" []) ⟨[], []⟩ = .error "IndexError" := rfl

/-- Claim C3 as amended: the renderer returns a string on every shallow
type expression — one whose named references avoid the three failure
modes: a sequence/optional reference with no generic argument raises
IndexError, an id absent from both the index and the path map raises
KeyError, and dispatch into the declaration visitors can exhaust the
recursion limit on cyclic schemas.  On unrecognized expression kinds it
returns the any placeholder and logs a diagnostic on the error stream. -/
theorem c3_amended_total_on_shallow :
    (∀ (env : Env) (fuel : Nat) (t : RdType) (st : St),
      shallowOk env t = true → rdFuel t ≤ fuel → isOkStr (visit_rdtype env fuel t st) = true) ∧
    (∀ (env : Env) (f : Nat) (k i : String) (st : St),
      visit_rdtype env (f + 1) (.other k i) st =
        .ok ("any /* unhandled tag " ++ k ++ " content " ++ i ++ " */",
             st.diag ("unhandled tag " ++ k ++ " content " ++ i))) :=
  ⟨c3_total, fun _ _ _ _ _ => rfl⟩

/-- Witness for C3: a concrete shallow expression (an array of 16-bit
integers referencing nothing) on which the renderer returns normally. -/
theorem c3_witness :
    shallowOk envW (.array (.primitive "u16")) = true ∧
    rdFuel (.array (.primitive "u16")) ≤ 10 ∧
    isOkStr (visit_rdtype envW 10 (.array (.primitive "u16")) ⟨[], []⟩) = true :=
  ⟨by decide, by decide,
   c3_amended_total_on_shallow.1 envW 10 (.array (.primitive "u16")) ⟨[], []⟩ (by decide) (by decide)⟩

/-- Apply a function to the rendered string of a normal result, passing
errors through (the shape of `visit(...) + suffix` in the script). -/
def mapOkStr (g : String → String) : Except String (String × St) → Except String (String × St)
  | .error e => .error e
  | .ok (s, st) => .ok (g s, st)

/-- Claim C4: a growable-sequence reference applied to the 8-bit unsigned
primitive and a fixed-size array of that primitive both render as the
binary-blob type Uint8Array, never as an element array; for every other
element type both shapes render as the element rendering followed by the
array brackets.  The sequence conjuncts need the well-known sequence id to
differ from the owned-string id, which is checked first. -/
theorem c4_byte_array_special_case :
    (∀ (env : Env) (f : Nat) (rest : List RdType) (st : St),
      (env.Vec_rdid == env.String_rdid) = false →
      visit_rdtype env (f + 2) (.resolvedPath env.Vec_rdid (.primitive "u8" :: rest)) st =
        .ok ("Uint8Array", st.diag ("visiting resolved path " ++ env.Vec_rdid))) ∧
    (∀ (env : Env) (f : Nat) (st : St),
      visit_rdtype env (f + 1) (.array (.primitive "u8")) st = .ok ("Uint8Array", st)) ∧
    (∀ (env : Env) (f : Nat) (e : RdType) (rest : List RdType) (st : St),
      isPrimU8 e = false →
      (env.Vec_rdid == env.String_rdid) = false →
      visit_rdtype env (f + 2) (.resolvedPath env.Vec_rdid (e :: rest)) st =
        mapOkStr (fun s => s ++ "[]")
          (visit_rdtype env f e (st.diag ("visiting resolved path " ++ env.Vec_rdid)))) ∧
    (∀ (env : Env) (f : Nat) (e : RdType) (st : St),
      isPrimU8 e = false →
      visit_rdtype env (f + 1) (.array e) st =
        mapOkStr (fun s => s ++ "[]") (visit_rdtype env f e st)) := by
  refine ⟨?_, ?_, ?_, ?_⟩
  · intro env f rest st hne
    simp [visit_rdtype, visit_resolved_path, hne, isPrimU8]
  · intro env f st
    rfl
  · intro env f e rest st hu hne
    simp only [visit_rdtype, visit_resolved_path, hne, Bool.false_eq_true, if_false,
      beq_self_eq_true, if_true, hu]
    cases hv : visit_rdtype env f e (st.diag ("visiting resolved path " ++ env.Vec_rdid)) with
    | error err => simp [mapOkStr, hv]
    | ok v => rcases v with ⟨s, st2⟩; simp [mapOkStr, hv]
  · intro env f e st hu
    simp only [visit_rdtype, hu, Bool.false_eq_true, if_false]
    cases hv : visit_rdtype env f e st with
    | error err => simp [mapOkStr]
    | ok v => rcases v with ⟨s, st2⟩; simp [mapOkStr]

/-- Witness for C4 at concrete inputs: Vec of u16 renders as the element
rendering plus brackets, Vec of u8 renders as Uint8Array. -/
theorem c4_witness :
    isPrimU8 (.primitive "u16") = false ∧
    (envW.Vec_rdid == envW.String_rdid) = false ∧
    visit_rdtype envW 4 (.resolvedPath "V" [.primitive "u16"]) ⟨[], []⟩ =
      mapOkStr (fun s => s ++ "[]")
        (visit_rdtype envW 2 (.primitive "u16") (St.diag ⟨[], []⟩ ("visiting resolved path " ++ "V"))) ∧
    visit_rdtype envW 4 (.resolvedPath "V" [.primitive "u8"]) ⟨[], []⟩ =
      .ok ("Uint8Array", St.diag ⟨[], []⟩ ("visiting resolved path " ++ "V")) :=
  ⟨by decide, by decide,
   c4_byte_array_special_case.2.2.1 envW 2 (.primitive "u16") [] ⟨[], []⟩ (by decide) (by decide),
   c4_byte_array_special_case.1 envW 2 [] ⟨[], []⟩ (by decide)⟩

/-- Claim C5: primitives up to 32 bits render as the native number type
annotated with the width/signedness tag, the 64-bit primitives render as
the distinguished large-integer alias, and the 128-bit primitives render
as the binary-blob type, each annotated with the original tag. -/
theorem c5_primitive_rendering :
    ∀ (env : Env) (f : Nat) (p : String) (st : St),
      (p ∈ ["u8", "u16", "u32", "i8", "i16", "i32"] →
        visit_rdtype env (f + 1) (.primitive p) st = .ok ("number /* " ++ p ++ " */", st)) ∧
      (p ∈ ["u64", "i64"] →
        visit_rdtype env (f + 1) (.primitive p) st = .ok ("oasis.types.longnum /* " ++ p ++ " */", st)) ∧
      (p ∈ ["u128", "i128"] →
        visit_rdtype env (f + 1) (.primitive p) st = .ok ("Uint8Array /* " ++ p ++ " */", st)) := by
  intro env f p st
  refine ⟨?_, ?_, ?_⟩ <;> intro hp <;> fin_cases hp <;> rfl

/-- Witness for C5 at the concrete widths u32, i64 and u128. -/
theorem c5_witness :
    visit_rdtype envW 1 (.primitive "u32") ⟨[], []⟩ = .ok ("number /* u32 */", ⟨[], []⟩) ∧
    visit_rdtype envW 1 (.primitive "i64") ⟨[], []⟩ = .ok ("oasis.types.longnum /* i64 */", ⟨[], []⟩) ∧
    visit_rdtype envW 1 (.primitive "u128") ⟨[], []⟩ = .ok ("Uint8Array /* u128 */", ⟨[], []⟩) :=
  ⟨(c5_primitive_rendering envW 0 "u32" ⟨[], []⟩).1 (by decide),
   (c5_primitive_rendering envW 0 "i64" ⟨[], []⟩).2.1 (by decide),
   (c5_primitive_rendering envW 0 "u128" ⟨[], []⟩).2.2 (by decide)⟩

/-- Whether an item payload is the shape visit_struct or visit_enum can
render (the only two functions that create memo entries). -/
def isDeclShape : ItemInner → Bool
  | .structI _ _ _ => true
  | .enumI _ => true
  | _ => false

/-- The state invariant behind claims C6 and C9: the memo dictionary has
pairwise distinct keys (it is a Python dict), and every memo entry was
created for an indexed item of struct or enum shape, under the name of
that item. -/
def StInv (env : Env) (st : St) : Prop :=
  (st.used_types_by_rdid.map (fun p => p.1)).Nodup ∧
  ∀ p ∈ st.used_types_by_rdid, ∃ item, pyDictLookup env.crate.index p.1 = some item ∧
    p.2.ref = item.name ∧ isDeclShape item.inner = true

/-- Writing a diagnostic line leaves the memo, hence the invariant,
untouched. -/
theorem stInv_diag (env : Env) (st : St) (l : String) : StInv env (st.diag l) ↔ StInv env st := Iff.rfl

/-- Assigning to a key that is already present keeps the key list. -/
theorem pyDictInsert_keys_present {α : Type} (m : List (String × α)) (k : String) (v : α)
    (h : (m.find? (fun p => p.1 == k)).isSome) :
    (pyDictInsert m k v).map (fun p => p.1) = m.map (fun p => p.1) := by
  simp only [pyDictInsert, h, if_true]
  rw [List.map_map]
  apply List.map_congr_left
  intro p hp
  simp only [Function.comp_apply]
  by_cases hk : (p.1 == k) = true
  · simp only [hk, if_true]
    exact (eq_of_beq hk).symm
  · simp only [Bool.not_eq_true] at hk
    simp [hk]

/-- Dictionary assignment of a justified entry preserves the invariant. -/
theorem stInv_insert (env : Env) (st : St) (rdid : String) (item : Item) (u : UsedType)
    (hinv : StInv env st) (hidx : pyDictLookup env.crate.index rdid = some item)
    (href : u.ref = item.name) (hshape : isDeclShape item.inner = true) :
    StInv env { st with used_types_by_rdid := pyDictInsert st.used_types_by_rdid rdid u } := by
  obtain ⟨hnd, hmem⟩ := hinv
  constructor
  · by_cases hpres : (st.used_types_by_rdid.find? (fun p => p.1 == rdid)).isSome = true
    · rw [pyDictInsert_keys_present _ _ _ hpres]
      exact hnd
    · simp only [Bool.not_eq_true] at hpres
      simp only [pyDictInsert, hpres, Bool.false_eq_true, if_false]
      rw [List.map_append]
      simp only [List.map_cons, List.map_nil]
      rw [List.nodup_append]
      refine ⟨hnd, List.nodup_singleton _, ?_⟩
      intro a ha hb
      obtain ⟨q, hq, hq2⟩ := List.mem_map.mp ha
      have hnone : st.used_types_by_rdid.find? (fun p => p.1 == rdid) = none :=
        Option.not_isSome_iff_eq_none.mp (by simp [hpres])
      have hfq := List.find?_eq_none.mp hnone q hq
      simp only [beq_iff_eq] at hfq
      exact hfq (hq2.trans (List.mem_singleton.mp hb))
  · intro p hp
    by_cases hpres : (st.used_types_by_rdid.find? (fun p => p.1 == rdid)).isSome = true
    · simp only [pyDictInsert, hpres, if_true] at hp
      obtain ⟨q, hq, hq2⟩ := List.mem_map.mp hp
      by_cases hk : (q.1 == rdid) = true
      · rw [if_pos hk] at hq2
        subst hq2
        exact ⟨item, hidx, href, hshape⟩
      · simp only [Bool.not_eq_true] at hk
        rw [if_neg (by simp [hk])] at hq2
        subst hq2
        exact hmem q hq
    · simp only [Bool.not_eq_true] at hpres
      simp only [pyDictInsert, hpres, Bool.false_eq_true, if_false, List.mem_append,
        List.mem_singleton] at hp
      cases hp with
      | inl hin => exact hmem p hin
      | inr heq => subst heq; exact ⟨item, hidx, href, hshape⟩

/-- The invariant is preserved by every visitor: simultaneous induction on
the recursion budget over the eleven mutually recursive functions.  Every
state change is either a diagnostic line or a dictionary assignment made
by visit_struct or visit_enum for an item just looked up in the index,
under that item name, in a branch whose payload shape is structI or
enumI. -/
theorem inv_preserved : ∀ (env : Env) (fuel : Nat),
    (∀ rdid st r st', render_field env fuel rdid st = .ok (r, st') → StInv env st → StInv env st') ∧
    (∀ rdids st r st', renderFieldsList env fuel rdids st = .ok (r, st') → StInv env st → StInv env st') ∧
    (∀ rdids st r st', tupleFieldsList env fuel rdids st = .ok (r, st') → StInv env st → StInv env st') ∧
    (∀ rdid st r st', visit_struct env fuel rdid st = .ok (r, st') → StInv env st → StInv env st') ∧
    (∀ rdid st r st', render_variant env fuel rdid st = .ok (r, st') → StInv env st → StInv env st') ∧
    (∀ tys st r st', variantTysList env fuel tys st = .ok (r, st') → StInv env st → StInv env st') ∧
    (∀ rdids st r st', variantsList env fuel rdids st = .ok (r, st') → StInv env st → StInv env st') ∧
    (∀ rdid st r st', visit_enum env fuel rdid st = .ok (r, st') → StInv env st → StInv env st') ∧
    (∀ rdid st r st', visit_typedef env fuel rdid st = .ok (r, st') → StInv env st → StInv env st') ∧
    (∀ id args st r st', visit_resolved_path env fuel id args st = .ok (r, st') → StInv env st → StInv env st') ∧
    (∀ t st r st', visit_rdtype env fuel t st = .ok (r, st') → StInv env st → StInv env st') := by
  intro env fuel
  induction fuel with
  | zero =>
    refine ⟨?_, ?_, ?_, ?_, ?_, ?_, ?_, ?_, ?_, ?_, ?_⟩
    · intro rdid st r st' h; simp [render_field] at h
    · intro rdids st r st' h; simp [renderFieldsList] at h
    · intro rdids st r st' h; simp [tupleFieldsList] at h
    · intro rdid st r st' h; simp [visit_struct] at h
    · intro rdid st r st' h; simp [render_variant] at h
    · intro tys st r st' h; simp [variantTysList] at h
    · intro rdids st r st' h; simp [variantsList] at h
    · intro rdid st r st' h; simp [visit_enum] at h
    · intro rdid st r st' h; simp [visit_typedef] at h
    · intro id args st r st' h; simp [visit_resolved_path] at h
    · intro t st r st' h; simp [visit_rdtype] at h
  | succ f ih =>
    obtain ⟨ihRF, ihRFL, ihTFL, ihVS, ihRV, ihVTL, ihVL, ihVE, ihVT, ihVRP, ihRT⟩ := ih
    refine ⟨?_, ?_, ?_, ?_, ?_, ?_, ?_, ?_, ?_, ?_, ?_⟩
    -- render_field
    · intro rdid st r st' h hinv
      simp only [render_field] at h
      cases hidx : pyDictLookup env.crate.index rdid with
      | none => simp [hidx] at h
      | some item =>
        simp only [hidx] at h
        cases hin : item.inner with
        | fieldI ty =>
          simp only [hin] at h
          cases hv : visit_rdtype env f ty (st.diag ("rendering field " ++ item.name)) with
          | error e => simp [hv] at h
          | ok v =>
            rcases v with ⟨tyS, st2⟩
            simp only [hv, Except.ok.injEq, Prod.mk.injEq] at h
            obtain ⟨-, h2⟩ := h
            subst h2
            exact ihRT ty _ tyS st2 hv hinv
        | structI a b c => simp [hin] at h
        | enumI a => simp [hin] at h
        | typedefI a => simp [hin] at h
        | variantI a b => simp [hin] at h
        | otherI => simp [hin] at h
    -- renderFieldsList
    · intro rdids st r st' h hinv
      simp only [renderFieldsList] at h
      cases rdids with
      | nil =>
        simp only [Except.ok.injEq, Prod.mk.injEq] at h
        obtain ⟨-, h2⟩ := h
        subst h2
        exact hinv
      | cons rdid rest =>
        cases hv1 : render_field env f rdid st with
        | error e => simp [hv1] at h
        | ok v1 =>
          rcases v1 with ⟨s1, st1⟩
          simp only [hv1] at h
          cases hv2 : renderFieldsList env f rest st1 with
          | error e => simp [hv2] at h
          | ok v2 =>
            rcases v2 with ⟨ss, st2⟩
            simp only [hv2, Except.ok.injEq, Prod.mk.injEq] at h
            obtain ⟨-, h2⟩ := h
            subst h2
            exact ihRFL rest st1 ss st2 hv2 (ihRF rdid st s1 st1 hv1 hinv)
    -- tupleFieldsList
    · intro rdids st r st' h hinv
      simp only [tupleFieldsList] at h
      cases rdids with
      | nil =>
        simp only [Except.ok.injEq, Prod.mk.injEq] at h
        obtain ⟨-, h2⟩ := h
        subst h2
        exact hinv
      | cons rdid rest =>
        cases hidx : pyDictLookup env.crate.index rdid with
        | none => simp [hidx] at h
        | some fitem =>
          simp only [hidx] at h
          cases hin : fitem.inner with
          | fieldI ty =>
            simp only [hin] at h
            cases hv1 : visit_rdtype env f ty st with
            | error e => simp [hv1] at h
            | ok v1 =>
              rcases v1 with ⟨s1, st1⟩
              simp only [hv1] at h
              cases hv2 : tupleFieldsList env f rest st1 with
              | error e => simp [hv2] at h
              | ok v2 =>
                rcases v2 with ⟨ss, st2⟩
                simp only [hv2, Except.ok.injEq, Prod.mk.injEq] at h
                obtain ⟨-, h2⟩ := h
                subst h2
                exact ihTFL rest st1 ss st2 hv2 (ihRT ty st s1 st1 hv1 hinv)
          | structI a b c => simp [hin] at h
          | enumI a => simp [hin] at h
          | typedefI a => simp [hin] at h
          | variantI a b => simp [hin] at h
          | otherI => simp [hin] at h
    -- visit_struct
    · intro rdid st r st' h hinv
      simp only [visit_struct] at h
      cases hpath : pyDictLookup env.crate.paths rdid with
      | none => simp [hpath] at h
      | some summary =>
        simp only [hpath] at h
        cases hmem : pyDictLookup st.used_types_by_rdid rdid with
        | some used =>
          simp only [St.diag, hmem, Except.ok.injEq, Prod.mk.injEq] at h
          obtain ⟨-, h2⟩ := h
          subst h2
          exact hinv
        | none =>
          simp only [St.diag, hmem] at h
          cases hidx : pyDictLookup env.crate.index rdid with
          | none => simp [hidx] at h
          | some item =>
            simp only [hidx] at h
            cases hin : item.inner with
            | structI stype fields stripped =>
              simp only [hin] at h
              by_cases hp : (stype == "plain") = true
              · simp only [hp, if_true] at h
                cases hv : renderFieldsList env f fields { used_types_by_rdid := st.used_types_by_rdid, stderrLog := st.stderrLog ++ ["visiting struct " ++ reprSummary summary] } with
                | error e => simp [hv] at h
                | ok v =>
                  rcases v with ⟨ss, st2⟩
                  simp only [hv, Except.ok.injEq, Prod.mk.injEq] at h
                  obtain ⟨-, h2⟩ := h
                  subst h2
                  have hinv2 := ihRFL fields _ ss st2 hv hinv
                  exact stInv_insert env st2 rdid item _ hinv2 hidx rfl (by rw [hin]; rfl)
              · simp only [Bool.not_eq_true] at hp
                simp only [hp, Bool.false_eq_true, if_false] at h
                by_cases ht : (stype == "tuple") = true
                · simp only [ht, if_true] at h
                  cases hstr : stripped with
                  | true =>
                    simp only [hstr, if_true, Except.ok.injEq, Prod.mk.injEq] at h
                    obtain ⟨-, h2⟩ := h
                    subst h2
                    exact stInv_insert env _ rdid item _ hinv hidx rfl (by rw [hin]; rfl)
                  | false =>
                    simp only [hstr, Bool.false_eq_true, if_false] at h
                    cases hv : tupleFieldsList env f fields { used_types_by_rdid := st.used_types_by_rdid, stderrLog := st.stderrLog ++ ["visiting struct " ++ reprSummary summary] } with
                    | error e => simp [hv] at h
                    | ok v =>
                      rcases v with ⟨ss, st2⟩
                      simp only [hv, Except.ok.injEq, Prod.mk.injEq] at h
                      obtain ⟨-, h2⟩ := h
                      subst h2
                      have hinv2 := ihTFL fields _ ss st2 hv hinv
                      exact stInv_insert env st2 rdid item _ hinv2 hidx rfl (by rw [hin]; rfl)
                · simp only [Bool.not_eq_true] at ht
                  simp only [ht, Bool.false_eq_true, if_false, Except.ok.injEq, Prod.mk.injEq] at h
                  obtain ⟨-, h2⟩ := h
                  subst h2
                  exact stInv_insert env _ rdid item _ hinv hidx rfl (by rw [hin]; rfl)
            | enumI a => simp [hin] at h
            | typedefI a => simp [hin] at h
            | fieldI a => simp [hin] at h
            | variantI a b => simp [hin] at h
            | otherI => simp [hin] at h
    -- render_variant
    · intro rdid st r st' h hinv
      simp only [render_variant] at h
      cases hpath : pyDictLookup env.crate.paths rdid with
      | none => simp [hpath] at h
      | some summary =>
        simp only [St.diag, hpath] at h
        cases hidx : pyDictLookup env.crate.index rdid with
        | none => simp [hidx] at h
        | some item =>
          simp only [hidx] at h
          cases hin : item.inner with
          | variantI vkind payload =>
            simp only [hin] at h
            by_cases hp : (vkind == "plain") = true
            · simp only [hp, if_true, Except.ok.injEq, Prod.mk.injEq] at h
              obtain ⟨-, h2⟩ := h
              subst h2
              exact hinv
            · simp only [Bool.not_eq_true] at hp
              simp only [hp, Bool.false_eq_true, if_false] at h
              by_cases htp : (vkind == "tuple") = true
              · simp only [htp, if_true] at h
                cases hpay : payload with
                | tupleTys tys =>
                  simp only [hpay] at h
                  cases tys with
                  | nil =>
                    cases hv : variantTysList env f [] { used_types_by_rdid := st.used_types_by_rdid, stderrLog := st.stderrLog ++ ["rendering variant " ++ reprSummary summary] } with
                    | error e => simp [hv] at h
                    | ok v =>
                      rcases v with ⟨ss, st2⟩
                      simp only [hv, Except.ok.injEq, Prod.mk.injEq] at h
                      obtain ⟨-, h2⟩ := h
                      subst h2
                      exact ihVTL [] _ ss st2 hv hinv
                  | cons ty1 rest =>
                    cases rest with
                    | nil =>
                      cases hv : visit_rdtype env f ty1 { used_types_by_rdid := st.used_types_by_rdid, stderrLog := st.stderrLog ++ ["rendering variant " ++ reprSummary summary] } with
                      | error e => simp [hv] at h
                      | ok v =>
                        rcases v with ⟨s1, st2⟩
                        simp only [hv, Except.ok.injEq, Prod.mk.injEq] at h
                        obtain ⟨-, h2⟩ := h
                        subst h2
                        exact ihRT ty1 _ s1 st2 hv hinv
                    | cons ty2 rest2 =>
                      cases hv : variantTysList env f (ty1 :: ty2 :: rest2) { used_types_by_rdid := st.used_types_by_rdid, stderrLog := st.stderrLog ++ ["rendering variant " ++ reprSummary summary] } with
                      | error e => simp [hv] at h
                      | ok v =>
                        rcases v with ⟨ss, st2⟩
                        simp only [hv, Except.ok.injEq, Prod.mk.injEq] at h
                        obtain ⟨-, h2⟩ := h
                        subst h2
                        exact ihVTL (ty1 :: ty2 :: rest2) _ ss st2 hv hinv
                | null => simp [hpay] at h
                | structFields flds => simp [hpay] at h
              · simp only [Bool.not_eq_true] at htp
                simp only [htp, Bool.false_eq_true, if_false] at h
                by_cases hst : (vkind == "struct") = true
                · simp only [hst, if_true] at h
                  cases hpay : payload with
                  | structFields flds =>
                    simp only [hpay] at h
                    cases hv : renderFieldsList env f flds { used_types_by_rdid := st.used_types_by_rdid, stderrLog := st.stderrLog ++ ["rendering variant " ++ reprSummary summary] } with
                    | error e => simp [hv] at h
                    | ok v =>
                      rcases v with ⟨ss, st2⟩
                      simp only [hv, Except.ok.injEq, Prod.mk.injEq] at h
                      obtain ⟨-, h2⟩ := h
                      subst h2
                      exact ihRFL flds _ ss st2 hv hinv
                  | null => simp [hpay] at h
                  | tupleTys tys => simp [hpay] at h
                · simp only [Bool.not_eq_true] at hst
                  simp only [hst, Bool.false_eq_true, if_false, Except.ok.injEq, Prod.mk.injEq] at h
                  obtain ⟨-, h2⟩ := h
                  subst h2
                  exact hinv
          | structI a b c => simp [hin] at h
          | enumI a => simp [hin] at h
          | typedefI a => simp [hin] at h
          | fieldI a => simp [hin] at h
          | otherI => simp [hin] at h
    -- variantTysList
    · intro tys st r st' h hinv
      simp only [variantTysList] at h
      cases tys with
      | nil =>
        simp only [Except.ok.injEq, Prod.mk.injEq] at h
        obtain ⟨-, h2⟩ := h
        subst h2
        exact hinv
      | cons ty rest =>
        cases hv1 : visit_rdtype env f ty st with
        | error e => simp [hv1] at h
        | ok v1 =>
          rcases v1 with ⟨s1, st1⟩
          simp only [hv1] at h
          cases hv2 : variantTysList env f rest st1 with
          | error e => simp [hv2] at h
          | ok v2 =>
            rcases v2 with ⟨ss, st2⟩
            simp only [hv2, Except.ok.injEq, Prod.mk.injEq] at h
            obtain ⟨-, h2⟩ := h
            subst h2
            exact ihVTL rest st1 ss st2 hv2 (ihRT ty st s1 st1 hv1 hinv)
    -- variantsList
    · intro rdids st r st' h hinv
      simp only [variantsList] at h
      cases rdids with
      | nil =>
        simp only [Except.ok.injEq, Prod.mk.injEq] at h
        obtain ⟨-, h2⟩ := h
        subst h2
        exact hinv
      | cons rdid rest =>
        cases hv1 : render_variant env f rdid st with
        | error e => simp [hv1] at h
        | ok v1 =>
          rcases v1 with ⟨s1, st1⟩
          simp only [hv1] at h
          cases hv2 : variantsList env f rest st1 with
          | error e => simp [hv2] at h
          | ok v2 =>
            rcases v2 with ⟨ss, st2⟩
            simp only [hv2, Except.ok.injEq, Prod.mk.injEq] at h
            obtain ⟨-, h2⟩ := h
            subst h2
            exact ihVL rest st1 ss st2 hv2 (ihRV rdid st s1 st1 hv1 hinv)
    -- visit_enum
    · intro rdid st r st' h hinv
      simp only [visit_enum] at h
      cases hpath : pyDictLookup env.crate.paths rdid with
      | none => simp [hpath] at h
      | some summary =>
        simp only [hpath] at h
        cases hmem : pyDictLookup st.used_types_by_rdid rdid with
        | some used =>
          simp only [St.diag, hmem, Except.ok.injEq, Prod.mk.injEq] at h
          obtain ⟨-, h2⟩ := h
          subst h2
          exact hinv
        | none =>
          simp only [St.diag, hmem] at h
          cases hidx : pyDictLookup env.crate.index rdid with
          | none => simp [hidx] at h
          | some item =>
            simp only [hidx] at h
            cases hin : item.inner with
            | enumI variants =>
              simp only [hin] at h
              cases hv : variantsList env f variants { used_types_by_rdid := st.used_types_by_rdid, stderrLog := st.stderrLog ++ ["visiting enum " ++ reprSummary summary] } with
              | error e => simp [hv] at h
              | ok v =>
                rcases v with ⟨ss, st2⟩
                simp only [hv, Except.ok.injEq, Prod.mk.injEq] at h
                obtain ⟨-, h2⟩ := h
                subst h2
                have hinv2 := ihVL variants _ ss st2 hv hinv
                exact stInv_insert env st2 rdid item _ hinv2 hidx rfl (by rw [hin]; rfl)
            | structI a b c => simp [hin] at h
            | typedefI a => simp [hin] at h
            | fieldI a => simp [hin] at h
            | variantI a b => simp [hin] at h
            | otherI => simp [hin] at h
    -- visit_typedef
    · intro rdid st r st' h hinv
      simp only [visit_typedef] at h
      cases hpath : pyDictLookup env.crate.paths rdid with
      | none => simp [hpath] at h
      | some summary =>
        simp only [St.diag, hpath] at h
        cases hidx : pyDictLookup env.crate.index rdid with
        | none => simp [hidx] at h
        | some item =>
          simp only [hidx] at h
          cases hin : item.inner with
          | typedefI ty =>
            simp only [hin] at h
            exact ihRT ty _ r st' h hinv
          | structI a b c => simp [hin] at h
          | enumI a => simp [hin] at h
          | fieldI a => simp [hin] at h
          | variantI a b => simp [hin] at h
          | otherI => simp [hin] at h
    -- visit_resolved_path
    · intro id args st r st' h hinv
      simp only [visit_resolved_path, St.diag] at h
      by_cases h1 : (id == env.String_rdid) = true
      · simp only [h1, if_true, Except.ok.injEq, Prod.mk.injEq] at h
        obtain ⟨-, h2⟩ := h
        subst h2
        exact hinv
      · simp only [Bool.not_eq_true] at h1
        simp only [h1, Bool.false_eq_true, if_false] at h
        by_cases h2 : (id == env.Vec_rdid) = true
        · simp only [h2, if_true] at h
          cases args with
          | nil => simp at h
          | cons arg0 rest =>
            by_cases hu : isPrimU8 arg0 = true
            · simp only [hu, if_true, Except.ok.injEq, Prod.mk.injEq] at h
              obtain ⟨-, hh⟩ := h
              subst hh
              exact hinv
            · simp only [Bool.not_eq_true] at hu
              simp only [hu, Bool.false_eq_true, if_false] at h
              cases hv : visit_rdtype env f arg0 { used_types_by_rdid := st.used_types_by_rdid, stderrLog := st.stderrLog ++ ["visiting resolved path " ++ id] } with
              | error e => simp [hv] at h
              | ok v =>
                rcases v with ⟨s1, st2⟩
                simp only [hv, Except.ok.injEq, Prod.mk.injEq] at h
                obtain ⟨-, hh⟩ := h
                subst hh
                exact ihRT arg0 _ s1 st2 hv hinv
        · simp only [Bool.not_eq_true] at h2
          simp only [h2, Bool.false_eq_true, if_false] at h
          by_cases h3 : (id == env.Option_rdid) = true
          · simp only [h3, if_true] at h
            cases args with
            | nil => simp at h
            | cons arg0 rest =>
              cases hv : visit_rdtype env f arg0 { used_types_by_rdid := st.used_types_by_rdid, stderrLog := st.stderrLog ++ ["visiting resolved path " ++ id] } with
              | error e => simp [hv] at h
              | ok v =>
                rcases v with ⟨s1, st2⟩
                simp only [hv, Except.ok.injEq, Prod.mk.injEq] at h
                obtain ⟨-, hh⟩ := h
                subst hh
                exact ihRT arg0 _ s1 st2 hv hinv
          · simp only [Bool.not_eq_true] at h3
            simp only [h3, Bool.false_eq_true, if_false] at h
            by_cases h4 : (id == env.cbor_Value_rdid) = true
            · simp only [h4, if_true, Except.ok.injEq, Prod.mk.injEq] at h
              obtain ⟨-, hh⟩ := h
              subst hh
              exact hinv
            · simp only [Bool.not_eq_true] at h4
              simp only [h4, Bool.false_eq_true, if_false] at h
              cases hidx : pyDictLookup env.crate.index id with
              | none =>
                simp only [hidx] at h
                cases hpath : pyDictLookup env.crate.paths id with
                | none => simp [hpath] at h
                | some summary =>
                  simp only [hpath, Except.ok.injEq, Prod.mk.injEq] at h
                  obtain ⟨-, hh⟩ := h
                  subst hh
                  exact hinv
              | some item =>
                simp only [hidx] at h
                by_cases hk1 : (item.kind == "struct") = true
                · simp only [hk1, if_true] at h
                  exact ihVS id _ r st' h hinv
                · simp only [Bool.not_eq_true] at hk1
                  simp only [hk1, Bool.false_eq_true, if_false] at h
                  by_cases hk2 : (item.kind == "enum") = true
                  · simp only [hk2, if_true] at h
                    exact ihVE id _ r st' h hinv
                  · simp only [Bool.not_eq_true] at hk2
                    simp only [hk2, Bool.false_eq_true, if_false] at h
                    by_cases hk3 : (item.kind == "typedef") = true
                    · simp only [hk3, if_true] at h
                      exact ihVT id _ r st' h hinv
                    · simp only [Bool.not_eq_true] at hk3
                      simp only [hk3, Bool.false_eq_true, if_false, Except.ok.injEq, Prod.mk.injEq] at h
                      obtain ⟨-, hh⟩ := h
                      subst hh
                      exact hinv
    -- visit_rdtype
    · intro t st r st' h hinv
      simp only [visit_rdtype] at h
      cases t with
      | resolvedPath id args => exact ihVRP id args st r st' h hinv
      | primitive p =>
        simp only [St.diag] at h
        split_ifs at h <;>
          (simp only [Except.ok.injEq, Prod.mk.injEq] at h
           obtain ⟨-, hh⟩ := h
           subst hh
           exact hinv)
      | array ty =>
        by_cases hu : isPrimU8 ty = true
        · simp only [hu, if_true, Except.ok.injEq, Prod.mk.injEq] at h
          obtain ⟨-, hh⟩ := h
          subst hh
          exact hinv
        · simp only [Bool.not_eq_true] at hu
          simp only [hu, Bool.false_eq_true, if_false] at h
          cases hv : visit_rdtype env f ty st with
          | error e => simp [hv] at h
          | ok v =>
            rcases v with ⟨s1, st2⟩
            simp only [hv, Except.ok.injEq, Prod.mk.injEq] at h
            obtain ⟨-, hh⟩ := h
            subst hh
            exact ihRT ty st s1 st2 hv hinv
      | other kind innerRepr =>
        simp only [St.diag, Except.ok.injEq, Prod.mk.injEq] at h
        obtain ⟨-, hh⟩ := h
        subst hh
        exact hinv

/-- The environment the setup returns carries the crate it was given. -/
theorem mkEnv_crate (c : Crate) (env : Env) (h : mkEnv c = .ok env) : env.crate = c := by
  simp only [mkEnv] at h
  repeat' split at h
  all_goals simp_all
  all_goals (cases h; rfl)

/-- A completed run reaches its final state through the three root visits
starting from the empty state, so the final state satisfies the memo
invariant. -/
theorem run_final_inv (c : Crate) (fuel : Nat) (out : String) (st' : St)
    (h : runConvert c fuel = .ok (out, st')) :
    ∃ env, mkEnv c = .ok env ∧ env.crate = c ∧ StInv env st' := by
  simp only [runConvert] at h
  cases hme : mkEnv c with
  | error e => simp [hme] at h
  | ok env =>
    refine ⟨env, rfl, mkEnv_crate c env hme, ?_⟩
    simp only [hme] at h
    cases hr1 : rdidForPath c 0 ["oasis_runtime_sdk", "modules", "accounts", "Event"] "enum" with
    | none => simp [hr1] at h
    | some eid =>
      simp only [hr1] at h
      cases hv1 : visit_enum env fuel eid ⟨[], []⟩ with
      | error e => simp [hv1] at h
      | ok v1 =>
        rcases v1 with ⟨r1, st1⟩
        simp only [hv1] at h
        cases hr2 : rdidForPath c 0 ["oasis_runtime_sdk", "types", "transaction", "Transaction"] "struct" with
        | none => simp [hr2] at h
        | some tid =>
          simp only [hr2] at h
          cases hv2 : visit_struct env fuel tid st1 with
          | error e => simp [hv2] at h
          | ok v2 =>
            rcases v2 with ⟨r2, st2⟩
            simp only [hv2] at h
            cases hr3 : rdidForPath c 0 ["oasis_runtime_sdk", "types", "transaction", "UnverifiedTransaction"] "struct" with
            | none => simp [hr3] at h
            | some uid =>
              simp only [hr3] at h
              cases hv3 : visit_struct env fuel uid st2 with
              | error e => simp [hv3] at h
              | ok v3 =>
                rcases v3 with ⟨r3, st3⟩
                simp only [hv3, Except.ok.injEq, Prod.mk.injEq] at h
                obtain ⟨-, hh⟩ := h
                subst hh
                have hinv0 : StInv env ⟨[], []⟩ := ⟨List.nodup_nil, by intro p hp; simp at hp⟩
                have hinv1 := (inv_preserved env fuel).2.2.2.2.2.2.2.1 eid ⟨[], []⟩ r1 st1 hv1 hinv0
                have hinv2 := (inv_preserved env fuel).2.2.2.1 tid st1 r2 st2 hv2 hinv1
                exact (inv_preserved env fuel).2.2.2.1 uid st2 r3 st3 hv3 hinv2

/-- Distinct keys mean each present key is counted exactly once. -/
theorem nodup_countP_one (l : List (String × UsedType)) (k : String)
    (hnd : (l.map (fun p => p.1)).Nodup) (hk : k ∈ l.map (fun p => p.1)) :
    l.countP (fun p => p.1 == k) = 1 := by
  have h1 : l.countP (fun p => p.1 == k) = (l.map (fun p => p.1)).countP (fun x => x == k) := by
    rw [List.countP_map]
    rfl
  rw [h1]
  have h2 : (l.map (fun p => p.1)).countP (fun x => x == k) = (l.map (fun p => p.1)).count k := by
    simp [List.count]
  rw [h2]
  have hle := List.nodup_iff_count_le_one.mp hnd k
  have hge := List.count_pos_iff.mpr hk
  omega

/-- The output text of the run over `crateW`. -/
def runWOut : String := "export type Event =\n;\n\nexport interface Transaction \x7b\n\x7d\n\nexport interface UnverifiedTransaction \x7b\n\x7d\n\n"

/-- The final state of the run over `crateW`. -/
def runWSt : St :=
  ⟨[("E", ⟨"Event", "export type Event =\n;\n"⟩),
    ("T", ⟨"Transaction", "export interface Transaction \x7b\n\x7d\n"⟩),
    ("U", ⟨"UnverifiedTransaction", "export interface UnverifiedTransaction \x7b\n\x7d\n"⟩)],
   ["visiting enum oasis_runtime_sdk::modules::accounts::Event",
    "visiting struct oasis_runtime_sdk::types::transaction::Transaction",
    "visiting struct oasis_runtime_sdk::types::transaction::UnverifiedTransaction"]⟩

/-- The full driver run over `crateW`, evaluated. -/
theorem runConvert_crateW : runConvert crateW 10 = .ok (runWOut, runWSt) := rfl

/-- Claim C6: visit_struct and visit_enum consult the memo before any
rendering work — when the rdid is already memoized they return the cached
name and leave the state unchanged apart from the visiting diagnostic —
and in every completed run the memo holds at most one UsedType per TypeId:
its key list is duplicate-free, so each memoized TypeId contributes
exactly one declaration to the output. -/
theorem c6_memo_unique :
    (∀ (env : Env) (f : Nat) (rdid : String) (st : St) (summary : PathSummary) (used : UsedType),
      pyDictLookup env.crate.paths rdid = some summary →
      pyDictLookup st.used_types_by_rdid rdid = some used →
      visit_struct env (f + 1) rdid st = .ok (used.ref, st.diag ("visiting struct " ++ reprSummary summary)) ∧
      visit_enum env (f + 1) rdid st = .ok (used.ref, st.diag ("visiting enum " ++ reprSummary summary))) ∧
    (∀ (c : Crate) (fuel : Nat) (out : String) (st' : St),
      runConvert c fuel = .ok (out, st') →
      (st'.used_types_by_rdid.map (fun p => p.1)).Nodup ∧
      ∀ k ∈ st'.used_types_by_rdid.map (fun p => p.1),
        st'.used_types_by_rdid.countP (fun p => p.1 == k) = 1) := by
  constructor
  · intro env f rdid st summary used hpath hmem
    constructor
    · simp [visit_struct, hpath, hmem, St.diag]
    · simp [visit_enum, hpath, hmem, St.diag]
  · intro c fuel out st' h
    obtain ⟨env, hme, hcr, hinv⟩ := run_final_inv c fuel out st' h
    exact ⟨hinv.1, fun k hk => nodup_countP_one _ k hinv.1 hk⟩

/-- Witness for C6: a concrete cached visit returns the cached name
without re-rendering, and the completed `crateW` run has duplicate-free
memo keys. -/
theorem c6_witness :
    visit_struct envW 1 "T" ⟨[("T", ⟨"Transaction", "srcT"⟩)], []⟩ =
      .ok ("Transaction", ⟨[("T", ⟨"Transaction", "srcT"⟩)],
        ["visiting struct oasis_runtime_sdk::types::transaction::Transaction"]⟩) ∧
    (runWSt.used_types_by_rdid.map (fun p => p.1)).Nodup :=
  ⟨(c6_memo_unique.1 envW 0 "T" ⟨[("T", ⟨"Transaction", "srcT"⟩)], []⟩ _ _ rfl rfl).1,
   (c6_memo_unique.2 crateW 10 runWOut runWSt runConvert_crateW).1⟩

/-- Claim C9: visit_typedef renders the aliased type expression in place —
it is exactly visit_rdtype on the target, never touching the memo for its
own rdid, so every reference re-renders the target — and in every
completed run every memo entry belongs to an indexed item of struct or
enum shape: no typedef is ever emitted as its own declaration. -/
theorem c9_typedef_inlined :
    (∀ (env : Env) (f : Nat) (rdid : String) (st : St) (summary : PathSummary) (item : Item) (ty : RdType),
      pyDictLookup env.crate.paths rdid = some summary →
      pyDictLookup env.crate.index rdid = some item →
      item.inner = .typedefI ty →
      visit_typedef env (f + 1) rdid st =
        visit_rdtype env f ty (st.diag ("visiting typedef " ++ reprSummary summary))) ∧
    (∀ (c : Crate) (fuel : Nat) (out : String) (st' : St),
      runConvert c fuel = .ok (out, st') →
      ∀ p ∈ st'.used_types_by_rdid, ∃ item,
        pyDictLookup c.index p.1 = some item ∧ p.2.ref = item.name ∧ isDeclShape item.inner = true) := by
  constructor
  · intro env f rdid st summary item ty hpath hidx hin
    simp [visit_typedef, hpath, hidx, hin, St.diag]
  · intro c fuel out st' h
    obtain ⟨env, hme, hcr, hinv⟩ := run_final_inv c fuel out st' h
    intro p hp
    obtain ⟨item, hitem, href, hshape⟩ := hinv.2 p hp
    rw [hcr] at hitem
    exact ⟨item, hitem, href, hshape⟩

/-- A crate holding one typedef aliasing the 8-bit primitive. -/
def crateC9 : Crate :=
  { index := [("td", { name := "Alias", docs := none, attrs := [], kind := "typedef", inner := .typedefI (.primitive "u8") })],
    paths := [("td", { crate_id := 0, path := ["m", "Alias"], kind := "typedef" })],
    external_crates := [] }

/-- Environment around `crateC9`. -/
def envC9 : Env := ⟨crateC9, "S", "V", "O", "C"⟩

/-- Witness for C9: the concrete typedef visit equals the visit of its
target, and the Event memo entry of the `crateW` run is enum-shaped. -/
theorem c9_witness :
    visit_typedef envC9 2 "td" ⟨[], []⟩ =
      visit_rdtype envC9 1 (.primitive "u8") (St.diag ⟨[], []⟩ "visiting typedef m::Alias") ∧
    (∃ item, pyDictLookup crateW.index "E" = some item ∧
      (⟨"Event", "export type Event =\n;\n"⟩ : UsedType).ref = item.name ∧ isDeclShape item.inner = true) :=
  ⟨c9_typedef_inlined.1 envC9 1 "td" ⟨[], []⟩ _ _ _ rfl rfl rfl,
   c9_typedef_inlined.2 crateW 10 runWOut runWSt runConvert_crateW ("E", ⟨"Event", "export type Event =\n;\n"⟩) (by decide)⟩

/-- A crate whose Transaction root is a struct of the unhandled kind
union: its placeholder declaration text carries no trailing newline. -/
def crateC7 : Crate :=
  { index := [
      ("Z", { name := "ZEnum", docs := none, attrs := [], kind := "enum", inner := .enumI [] }),
      ("A", { name := "AUnion", docs := none, attrs := [], kind := "struct", inner := .structI "union" [] false }),
      ("B", { name := "BStruct", docs := none, attrs := [], kind := "struct", inner := .structI "plain" [] false })],
    paths := [
      ("S", { crate_id := 1, path := ["alloc", "string", "String"], kind := "struct" }),
      ("V", { crate_id := 1, path := ["alloc", "vec", "Vec"], kind := "struct" }),
      ("O", { crate_id := 2, path := ["core", "option", "Option"], kind := "enum" }),
      ("C", { crate_id := 3, path := ["sk_cbor", "values", "Value"], kind := "enum" }),
      ("Z", { crate_id := 0, path := ["oasis_runtime_sdk", "modules", "accounts", "Event"], kind := "enum" }),
      ("A", { crate_id := 0, path := ["oasis_runtime_sdk", "types", "transaction", "Transaction"], kind := "struct" }),
      ("B", { crate_id := 0, path := ["oasis_runtime_sdk", "types", "transaction", "UnverifiedTransaction"], kind := "struct" })],
    external_crates := [(1, "alloc"), (2, "core"), (3, "sk_cbor")] }


/-- The code-point order is total. -/
theorem charListLe_total : ∀ a b, charListLe a b = true ∨ charListLe b a = true := by
  intro a
  induction a with
  | nil => intro b; left; rfl
  | cons x xs ih =>
    intro b
    cases b with
    | nil => right; rfl
    | cons y ys =>
      simp only [charListLe]
      by_cases h : (x.toNat == y.toNat) = true
      · have h' : (y.toNat == x.toNat) = true := by
          simp only [beq_iff_eq] at h ⊢; omega
        simp only [h, h', if_true]
        exact ih ys
      · simp only [Bool.not_eq_true] at h
        have h' : (y.toNat == x.toNat) = false := by
          simp only [beq_eq_false_iff_ne] at h ⊢; omega
        simp only [h, h', Bool.false_eq_true, if_false, decide_eq_true_eq]
        simp only [beq_eq_false_iff_ne] at h
        omega
  
/-- The code-point order is transitive. -/
theorem charListLe_trans : ∀ a b c, charListLe a b = true → charListLe b c = true → charListLe a c = true := by
  intro a
  induction a with
  | nil => intro b c h1 h2; rfl
  | cons x xs ih =>
    intro b c h1 h2
    cases b with
    | nil => simp [charListLe] at h1
    | cons y ys =>
      cases c with
      | nil => simp [charListLe] at h2
      | cons z zs =>
        simp only [charListLe] at h1 h2 ⊢
        by_cases hxy : (x.toNat == y.toNat) = true
        · simp only [hxy, if_true] at h1
          by_cases hyz : (y.toNat == z.toNat) = true
          · simp only [hyz, if_true] at h2
            have hxz : (x.toNat == z.toNat) = true := by
              simp only [beq_iff_eq] at hxy hyz ⊢; omega
            simp only [hxz, if_true]
            exact ih ys zs h1 h2
          · simp only [Bool.not_eq_true] at hyz
            simp only [hyz, Bool.false_eq_true, if_false, decide_eq_true_eq] at h2
            simp only [beq_iff_eq] at hxy
            have hxz : (x.toNat == z.toNat) = false := by
              simp only [beq_eq_false_iff_ne]; omega
            simp only [hxz, Bool.false_eq_true, if_false, decide_eq_true_eq]
            omega
        · simp only [Bool.not_eq_true] at hxy
          simp only [hxy, Bool.false_eq_true, if_false, decide_eq_true_eq] at h1
          by_cases hyz : (y.toNat == z.toNat) = true
          · simp only [beq_iff_eq] at hyz
            have hxz : (x.toNat == z.toNat) = false := by
              simp only [beq_eq_false_iff_ne]; omega
            simp only [hxz, Bool.false_eq_true, if_false, decide_eq_true_eq]
            omega
          · simp only [Bool.not_eq_true] at hyz
            simp only [hyz, Bool.false_eq_true, if_false, decide_eq_true_eq] at h2
            have hxz : (x.toNat == z.toNat) = false := by
              simp only [beq_eq_false_iff_ne]; omega
            simp only [hxz, Bool.false_eq_true, if_false, decide_eq_true_eq]
            omega

/-- Totality of the Python string order. -/
theorem strLe_total (a b : String) : strLe a b = true ∨ strLe b a = true :=
  charListLe_total a.data b.data

/-- Transitivity of the Python string order. -/
theorem strLe_trans (a b c : String) (h1 : strLe a b = true) (h2 : strLe b c = true) : strLe a c = true :=
  charListLe_trans a.data b.data c.data h1 h2

/-- Inserting one declaration permutes it to the front. -/
theorem insortOne_perm (x : UsedType) (l : List UsedType) : (insortOne x l).Perm (x :: l) := by
  induction l with
  | nil => exact List.Perm.refl _
  | cons h t ih =>
    simp only [insortOne]
    by_cases hle : strLe h.ref x.ref = true
    · simp only [hle, if_true]
      exact (ih.cons h).trans (List.Perm.swap x h t)
    · simp only [Bool.not_eq_true] at hle
      simp [hle]

/-- Insertion preserves sortedness by emitted name. -/
theorem insortOne_sorted (x : UsedType) (l : List UsedType)
    (hs : l.Pairwise (fun a b => strLe a.ref b.ref = true)) :
    (insortOne x l).Pairwise (fun a b => strLe a.ref b.ref = true) := by
  induction l with
  | nil => simp [insortOne]
  | cons h t ih =>
    simp only [insortOne]
    rcases List.pairwise_cons.mp hs with ⟨hhead, htail⟩
    by_cases hle : strLe h.ref x.ref = true
    · simp only [hle, if_true]
      rw [List.pairwise_cons]
      refine ⟨?_, ih htail⟩
      intro b hb
      have hmem := (insortOne_perm x t).mem_iff.mp hb
      rcases List.mem_cons.mp hmem with hbx | hbt
      · subst hbx; exact hle
      · exact hhead b hbt
    · simp only [Bool.not_eq_true] at hle
      simp only [hle, Bool.false_eq_true, if_false]
      rw [List.pairwise_cons]
      have hxh : strLe x.ref h.ref = true := by
        rcases strLe_total h.ref x.ref with hh | hh
        · rw [hh] at hle; cases hle
        · exact hh
      refine ⟨?_, hs⟩
      intro b hb
      rcases List.mem_cons.mp hb with hbh | hbt
      · subst hbh; exact hxh
      · exact strLe_trans _ _ _ hxh (hhead b hbt)

/-- The sort permutes the memoized declarations. -/
theorem sortByRef_perm (l : List UsedType) : (sortByRef l).Perm l := by
  have aux : ∀ (l : List UsedType) (acc : List UsedType),
      (l.foldl (fun acc x => insortOne x acc) acc).Perm (acc ++ l) := by
    intro l
    induction l with
    | nil => intro acc; simp
    | cons x t ih =>
      intro acc
      simp only [List.foldl_cons]
      have h1 := ih (insortOne x acc)
      have h2 : ((insortOne x acc) ++ t).Perm ((x :: acc) ++ t) :=
        (insortOne_perm x acc).append_right t
      have h3 : ((x :: acc) ++ t).Perm (acc ++ x :: t) := by
        simp only [List.cons_append]
        exact List.perm_middle.symm
      exact (h1.trans h2).trans h3
  simpa using aux l []

/-- The sort orders declarations by emitted name. -/
theorem sortByRef_sorted (l : List UsedType) :
    (sortByRef l).Pairwise (fun a b => strLe a.ref b.ref = true) := by
  have aux : ∀ (l : List UsedType) (acc : List UsedType),
      acc.Pairwise (fun a b => strLe a.ref b.ref = true) →
      (l.foldl (fun acc x => insortOne x acc) acc).Pairwise (fun a b => strLe a.ref b.ref = true) := by
    intro l
    induction l with
    | nil => intro acc h; simpa using h
    | cons x t ih =>
      intro acc h
      simp only [List.foldl_cons]
      exact ih (insortOne x acc) (insortOne_sorted x acc h)
  exact aux l [] List.Pairwise.nil

/-- Whether a string ends with a newline character. -/
def strEndsWithNl (s : String) : Bool :=
  match s.data.getLast? with
  | some c => c == '\n'
  | none => false

/-- The claim C7 reading of the output format: the name-ordered
declaration texts joined by single newlines plus the final newline of
print, with an empty line between consecutive declarations — given the
single-newline join, that blank line exists exactly when each earlier
declaration text ends with its own newline. -/
def blankLineSeparated (out : String) (decls : List String) : Prop :=
  out = String.intercalate "\n" decls ++ "\n" ∧ ∀ d ∈ decls.dropLast, strEndsWithNl d = true

instance (out : String) (decls : List String) : Decidable (blankLineSeparated out decls) :=
  decidable_of_iff (out = String.intercalate "\n" decls ++ "\n" ∧ ∀ d ∈ decls.dropLast, strEndsWithNl d = true) Iff.rfl

/-- The output text of the run over `crateC7`. -/
def c7Out : String := "export type AUnion = oasis.types.NotModeled; // unhandled struct_type union\nexport interface BStruct \x7b\n\x7d\n\nexport type ZEnum =\n;\n\n"

/-- The final state of the run over `crateC7`. -/
def c7St : St :=
  ⟨[("Z", ⟨"ZEnum", "export type ZEnum =\n;\n"⟩),
    ("A", ⟨"AUnion", "export type AUnion = oasis.types.NotModeled; // unhandled struct_type union"⟩),
    ("B", ⟨"BStruct", "export interface BStruct \x7b\n\x7d\n"⟩)],
   ["visiting enum oasis_runtime_sdk::modules::accounts::Event",
    "visiting struct oasis_runtime_sdk::types::transaction::Transaction",
    "unhandled struct_type union",
    "visiting struct oasis_runtime_sdk::types::transaction::UnverifiedTransaction"]⟩

/-- Counterexample to claim C7: in the `crateC7` run, the placeholder text
of the unhandled-struct-kind declaration AUnion (which sorts first) does
not end with a newline, so only a single line break — no blank line —
separates it from the following declaration: the output is not
blank-line-separated as the claim states. -/
theorem c7_counterexample :
    runConvert crateC7 10 = .ok (c7Out, c7St) ∧
    (sortByRef (c7St.used_types_by_rdid.map (fun p => p.2))).map (fun u => u.source) =
      ["export type AUnion = oasis.types.NotModeled; // unhandled struct_type union",
       "export interface BStruct \x7b\n\x7d\n",
       "export type ZEnum =\n;\n"] ∧
    ¬ blankLineSeparated c7Out ((sortByRef (c7St.used_types_by_rdid.map (fun p => p.2))).map (fun u => u.source)) :=
  ⟨rfl, rfl, by decide⟩

/-- Claim C7 as amended: the output written to standard output is the
memoized declaration texts sorted lexicographically (by code point) on the
emitted name, joined by single newlines, plus the trailing newline of
print.  Consecutive declarations are therefore separated by a blank line
exactly when the earlier text ends with its own newline, which holds for
every fully handled struct and enum form but not for the
unhandled-struct-kind placeholder. -/
theorem c7_amended_output :
    ∀ (c : Crate) (fuel : Nat) (out : String) (st' : St),
      runConvert c fuel = .ok (out, st') →
      out = String.intercalate "\n" ((sortByRef (st'.used_types_by_rdid.map (fun p => p.2))).map (fun u => u.source)) ++ "\n" ∧
      (sortByRef (st'.used_types_by_rdid.map (fun p => p.2))).Perm (st'.used_types_by_rdid.map (fun p => p.2)) ∧
      (sortByRef (st'.used_types_by_rdid.map (fun p => p.2))).Pairwise (fun a b => strLe a.ref b.ref = true) := by
  intro c fuel out st' h
  refine ⟨?_, sortByRef_perm _, sortByRef_sorted _⟩
  simp only [runConvert] at h
  cases hme : mkEnv c with
  | error e => simp [hme] at h
  | ok env =>
    simp only [hme] at h
    cases hr1 : rdidForPath c 0 ["oasis_runtime_sdk", "modules", "accounts", "Event"] "enum" with
    | none => simp [hr1] at h
    | some eid =>
      simp only [hr1] at h
      cases hv1 : visit_enum env fuel eid ⟨[], []⟩ with
      | error e => simp [hv1] at h
      | ok v1 =>
        rcases v1 with ⟨r1, st1⟩
        simp only [hv1] at h
        cases hr2 : rdidForPath c 0 ["oasis_runtime_sdk", "types", "transaction", "Transaction"] "struct" with
        | none => simp [hr2] at h
        | some tid =>
          simp only [hr2] at h
          cases hv2 : visit_struct env fuel tid st1 with
          | error e => simp [hv2] at h
          | ok v2 =>
            rcases v2 with ⟨r2, st2⟩
            simp only [hv2] at h
            cases hr3 : rdidForPath c 0 ["oasis_runtime_sdk", "types", "transaction", "UnverifiedTransaction"] "struct" with
            | none => simp [hr3] at h
            | some uid =>
              simp only [hr3] at h
              cases hv3 : visit_struct env fuel uid st2 with
              | error e => simp [hv3] at h
              | ok v3 =>
                rcases v3 with ⟨r3, st3⟩
                simp only [hv3, Except.ok.injEq, Prod.mk.injEq] at h
                obtain ⟨h1, h2⟩ := h
                subst h2
                exact h1.symm

/-- Witness for C7 on the completed `crateW` run. -/
theorem c7_witness :
    runWOut = String.intercalate "\n" ((sortByRef (runWSt.used_types_by_rdid.map (fun p => p.2))).map (fun u => u.source)) ++ "\n" ∧
    (sortByRef (runWSt.used_types_by_rdid.map (fun p => p.2))).Perm (runWSt.used_types_by_rdid.map (fun p => p.2)) ∧
    (sortByRef (runWSt.used_types_by_rdid.map (fun p => p.2))).Pairwise (fun a b => strLe a.ref b.ref = true) :=
  c7_amended_output crateW 10 runWOut runWSt runConvert_crateW

/-- Claim C8: the generator is deterministic — the run is a pure function
of the schema crate (and the recursion budget), with no dependence on
iteration order, time, or randomness, so two runs over equal inputs
produce byte-identical output. -/
theorem c8_deterministic :
    ∀ (c1 c2 : Crate) (fuel : Nat), c1 = c2 → runConvert c1 fuel = runConvert c2 fuel := by
  intro c1 c2 fuel h
  rw [h]

/-- Witness for C8 at the concrete crate `crateW`. -/
theorem c8_witness : runConvert crateW 10 = runConvert crateW 10 :=
  c8_deterministic crateW crateW 10 rfl

/-- Looking up the key just assigned returns the assigned value. -/
theorem pyDictLookup_insert_self {α : Type} (m : List (String × α)) (k : String) (v : α) :
    pyDictLookup (pyDictInsert m k v) k = some v := by
  by_cases hp : (m.find? (fun p => p.1 == k)).isSome = true
  · simp only [pyDictInsert, hp, if_true, pyDictLookup]
    induction m with
    | nil => simp [List.find?] at hp
    | cons p t ih =>
      by_cases hk : (p.1 == k) = true
      · simp only [List.map_cons, hk, if_true]
        rw [List.find?_cons_of_pos _ (by simp)]
        rfl
      · simp only [Bool.not_eq_true] at hk
        simp only [List.map_cons, hk, Bool.false_eq_true, if_false]
        rw [List.find?_cons_of_neg _ (by simp [hk])]
        apply ih
        have h2 : (List.find? (fun p => p.1 == k) (p :: t)).isSome = true := hp
        rw [List.find?_cons_of_neg _ (by simp [hk])] at h2
        exact h2
  · simp only [Bool.not_eq_true] at hp
    simp only [pyDictInsert, hp, Bool.false_eq_true, if_false, pyDictLookup]
    rw [List.find?_append]
    have hnone : m.find? (fun p => p.1 == k) = none := Option.not_isSome_iff_eq_none.mp (by simp [hp])
    rw [hnone]
    simp [List.find?]

/-- Claim C10: whenever visit_struct or visit_enum returns a name, that
name is the schema-declared item name — the cached ref for a memoized
rdid (itself stored as the item name when first created), and otherwise
the name of the freshly indexed item, which is also what the new memo
entry records.  The declaration attrs never enter the computation: the
theorem holds for every item whatever its attribute list, so rename
attributes on the declaration itself cannot change the emitted name. -/
theorem c10_declaration_name :
    ∀ (env : Env) (fuel : Nat) (rdid : String) (st : St) (r : String) (st' : St),
      visit_struct env fuel rdid st = .ok (r, st') ∨ visit_enum env fuel rdid st = .ok (r, st') →
      (match pyDictLookup st.used_types_by_rdid rdid with
       | some used => r = used.ref
       | none => ∃ item, pyDictLookup env.crate.index rdid = some item ∧ r = item.name ∧
           (pyDictLookup st'.used_types_by_rdid rdid).map (fun u => u.ref) = some item.name) := by
  intro env fuel rdid st r st' h
  match fuel with
  | 0 => rcases h with h | h <;> simp [visit_struct, visit_enum] at h
  | f + 1 =>
    rcases h with h | h
    · simp only [visit_struct] at h
      cases hpath : pyDictLookup env.crate.paths rdid with
      | none => simp [hpath] at h
      | some summary =>
        simp only [St.diag, hpath] at h
        cases hmem : pyDictLookup st.used_types_by_rdid rdid with
        | some used =>
          simp only [hmem, Except.ok.injEq, Prod.mk.injEq] at h
          simp only [hmem]
          exact h.1.symm
        | none =>
          simp only [hmem] at h
          simp only [hmem]
          cases hidx : pyDictLookup env.crate.index rdid with
          | none => simp [hidx] at h
          | some item =>
            simp only [hidx] at h
            cases hin : item.inner with
            | structI stype fields stripped =>
              simp only [hin] at h
              by_cases hp : (stype == "plain") = true
              · simp only [hp, if_true] at h
                cases hv : renderFieldsList env f fields { used_types_by_rdid := st.used_types_by_rdid, stderrLog := st.stderrLog ++ ["visiting struct " ++ reprSummary summary] } with
                | error e => simp [hv] at h
                | ok v =>
                  rcases v with ⟨ss, st2⟩
                  simp only [hv, Except.ok.injEq, Prod.mk.injEq] at h
                  obtain ⟨h1, h2⟩ := h
                  subst h2
                  exact ⟨item, rfl, h1.symm, by simp [pyDictLookup_insert_self]⟩
              · simp only [Bool.not_eq_true] at hp
                simp only [hp, Bool.false_eq_true, if_false] at h
                by_cases ht : (stype == "tuple") = true
                · simp only [ht, if_true] at h
                  cases hstr : stripped with
                  | true =>
                    simp only [hstr, if_true, Except.ok.injEq, Prod.mk.injEq] at h
                    obtain ⟨h1, h2⟩ := h
                    subst h2
                    exact ⟨item, rfl, h1.symm, by simp [pyDictLookup_insert_self]⟩
                  | false =>
                    simp only [hstr, Bool.false_eq_true, if_false] at h
                    cases hv : tupleFieldsList env f fields { used_types_by_rdid := st.used_types_by_rdid, stderrLog := st.stderrLog ++ ["visiting struct " ++ reprSummary summary] } with
                    | error e => simp [hv] at h
                    | ok v =>
                      rcases v with ⟨ss, st2⟩
                      simp only [hv, Except.ok.injEq, Prod.mk.injEq] at h
                      obtain ⟨h1, h2⟩ := h
                      subst h2
                      exact ⟨item, rfl, h1.symm, by simp [pyDictLookup_insert_self]⟩
                · simp only [Bool.not_eq_true] at ht
                  simp only [ht, Bool.false_eq_true, if_false, Except.ok.injEq, Prod.mk.injEq] at h
                  obtain ⟨h1, h2⟩ := h
                  subst h2
                  exact ⟨item, rfl, h1.symm, by simp [pyDictLookup_insert_self]⟩
            | enumI a => simp [hin] at h
            | typedefI a => simp [hin] at h
            | fieldI a => simp [hin] at h
            | variantI a b => simp [hin] at h
            | otherI => simp [hin] at h
    · simp only [visit_enum] at h
      cases hpath : pyDictLookup env.crate.paths rdid with
      | none => simp [hpath] at h
      | some summary =>
        simp only [St.diag, hpath] at h
        cases hmem : pyDictLookup st.used_types_by_rdid rdid with
        | some used =>
          simp only [hmem, Except.ok.injEq, Prod.mk.injEq] at h
          simp only [hmem]
          exact h.1.symm
        | none =>
          simp only [hmem] at h
          simp only [hmem]
          cases hidx : pyDictLookup env.crate.index rdid with
          | none => simp [hidx] at h
          | some item =>
            simp only [hidx] at h
            cases hin : item.inner with
            | enumI variants =>
              simp only [hin] at h
              cases hv : variantsList env f variants { used_types_by_rdid := st.used_types_by_rdid, stderrLog := st.stderrLog ++ ["visiting enum " ++ reprSummary summary] } with
              | error e => simp [hv] at h
              | ok v =>
                rcases v with ⟨ss, st2⟩
                simp only [hv, Except.ok.injEq, Prod.mk.injEq] at h
                obtain ⟨h1, h2⟩ := h
                subst h2
                exact ⟨item, rfl, h1.symm, by simp [pyDictLookup_insert_self]⟩
            | structI a b c => simp [hin] at h
            | typedefI a => simp [hin] at h
            | fieldI a => simp [hin] at h
            | variantI a b => simp [hin] at h
            | otherI => simp [hin] at h

/-- Witness for C10: the fresh visit of the Transaction struct of `crateW`
returns and memoizes the schema name Transaction. -/
theorem c10_witness :
    ∃ item, pyDictLookup envW.crate.index "T" = some item ∧ "Transaction" = item.name ∧
      (pyDictLookup (⟨[("T", ⟨"Transaction", "export interface Transaction \x7b\n\x7d\n"⟩)],
          ["visiting struct oasis_runtime_sdk::types::transaction::Transaction"]⟩ : St).used_types_by_rdid
        "T").map (fun u => u.ref) = some item.name :=
  c10_declaration_name envW 2 "T" ⟨[], []⟩ "Transaction"
    ⟨[("T", ⟨"Transaction", "export interface Transaction \x7b\n\x7d\n"⟩)],
     ["visiting struct oasis_runtime_sdk::types::transaction::Transaction"]⟩ (Or.inl rfl)
